import Mathlib

/-
Verification development for the Framerly AR engine tracking core.

The embedding models, over exact rationals:
  - `PoseFilter` (src/src/core/PoseFilter.ts): exponential smoothing of a
    position/orientation stream with a jitter-based stability machine;
  - `PlaneTracker` (the plane registry): a single shared pose filter, a map of
    detected planes keyed by plane id, staleness sweeping, orientation
    classification and the derived tracking state with change notifications;
  - `FramerlyAREngine` placed-object bookkeeping (`updateObject` /
    `removeObject`).

Two numeric operations of the source are transcendental and are therefore
passed in as explicit function parameters instead of being fixed:
  - `dist` stands for `Vector3.distanceTo` (a Euclidean square root, irrational
    on most rational inputs); theorems quantify over `dist`, and concrete
    instances use inputs on a single axis where the Euclidean distance is the
    rational `|dx|`.
  - `slerpQuaternions` stands for `Quaternion.slerpQuaternions` (trigonometric);
    no claim inspects a smoothed rotation value, so theorems quantify over it.
    Concrete instances use identical unit quaternions, where slerp returns that
    same quaternion.
All smoothing arithmetic, thresholds, histories and timestamps are modelled
exactly as in the source, with `performance.now()` values passed explicitly.
-/

/-- Model of a three.js `Vector3` with exact rational coordinates. -/
structure Vec3 where
  x : ℚ
  y : ℚ
  z : ℚ
  deriving DecidableEq, Repr

/-- Model of a three.js `Quaternion` with exact rational components. -/
structure Quat where
  x : ℚ
  y : ℚ
  z : ℚ
  w : ℚ
  deriving DecidableEq, Repr

/-- The `PoseFilterOptions` record from src/src/types/index.ts. -/
structure PoseFilterOptions where
  positionSmoothingFactor : ℚ
  rotationSmoothingFactor : ℚ
  maxJitterThreshold : ℚ
  stabilizationTime : ℚ
  deriving DecidableEq, Repr

/-- Defaults installed by the `PoseFilter` constructor:
`0.8`, `0.9`, `0.01` m and `1000` ms. -/
def defaultPoseFilterOptions : PoseFilterOptions where
  positionSmoothingFactor := 4 / 5
  rotationSmoothingFactor := 9 / 10
  maxJitterThreshold := 1 / 100
  stabilizationTime := 1000

/-- Mutable state of a `PoseFilter` instance.  The source stores the velocity
history as `Vector3(delta, 0, 0)` entries and only ever reads the `x`
component, so the history is modelled as the list of deltas. -/
structure PoseFilterState where
  options : PoseFilterOptions
  lastPosition : Option Vec3
  lastRotation : Option Quat
  velocityHistory : List ℚ
  stabilizationStartTime : Option ℚ
  isStable : Bool
  deriving DecidableEq, Repr

/-- State of `new PoseFilter(options)` (with a fully supplied options record). -/
def PoseFilter.initWith (options : PoseFilterOptions) : PoseFilterState where
  options := options
  lastPosition := none
  lastRotation := none
  velocityHistory := []
  stabilizationStartTime := none
  isStable := false

/-- State of `new PoseFilter()` with all defaults. -/
def PoseFilter.init : PoseFilterState :=
  PoseFilter.initWith defaultPoseFilterOptions

/-- JavaScript truthiness test `!this.stabilizationStartTime` on a stored
timestamp: `undefined` and `0` are falsy. -/
def jsFalsyTime : Option ℚ → Bool
  | none => true
  | some t => decide (t = 0)

/-- `PoseFilter.smoothPosition`: per-axis exponential moving average against
the stored last (smoothed) position. -/
def smoothPosition (st : PoseFilterState) (newPosition : Vec3) : Vec3 :=
  match st.lastPosition with
  | none => newPosition
  | some lastPosition =>
      let factor := st.options.positionSmoothingFactor
      { x := lastPosition.x * factor + newPosition.x * (1 - factor)
        y := lastPosition.y * factor + newPosition.y * (1 - factor)
        z := lastPosition.z * factor + newPosition.z * (1 - factor) }

/-- `PoseFilter.smoothRotation`: slerp from the new raw rotation toward the
previous smoothed rotation with weight `rotationSmoothingFactor`. -/
def smoothRotation (slerpQuaternions : Quat → Quat → ℚ → Quat)
    (st : PoseFilterState) (newRotation : Quat) : Quat :=
  match st.lastRotation with
  | none => newRotation
  | some lastRotation =>
      slerpQuaternions newRotation lastRotation st.options.rotationSmoothingFactor

/-- `PoseFilter.updateVelocityHistory`: push the new delta, then drop the
oldest entry once the length exceeds 10. -/
def updateVelocityHistory (velocityHistory : List ℚ) (delta : ℚ) : List ℚ :=
  let pushed := velocityHistory ++ [delta]
  if pushed.length > 10 then pushed.tail else pushed

/-- `PoseFilter.updateStabilityState`, acting on the already-updated velocity
history exactly as in the source: when both the latest delta and the history
mean are below the jitter threshold the stabilization clock runs (started now
if unset), and stability holds once the elapsed duration reaches
`stabilizationTime`; otherwise the clock is cleared and stability is false.
Returns the new `stabilizationStartTime` and `isStable`. -/
def updateStabilityState (options : PoseFilterOptions) (velocityHistory : List ℚ)
    (stabilizationStartTime : Option ℚ) (positionDelta currentTime : ℚ) :
    Option ℚ × Bool :=
  let isLowJitter := positionDelta < options.maxJitterThreshold
  let avgVelocity := velocityHistory.sum / (velocityHistory.length : ℚ)
  let isLowVelocity := avgVelocity < options.maxJitterThreshold
  if isLowJitter ∧ isLowVelocity then
    let startTime :=
      if jsFalsyTime stabilizationStartTime then currentTime
      else stabilizationStartTime.getD currentTime
    (some startTime, decide (currentTime - startTime ≥ options.stabilizationTime))
  else (none, false)

/-- The record returned by `PoseFilter.filter`. -/
structure FilterResult where
  position : Vec3
  rotation : Quat
  isStable : Bool
  deriving DecidableEq, Repr

/-- `PoseFilter.filter(position, rotation)` at time `now`.  On the first call
the raw sample is recorded and returned with `isStable = false`; on later
calls the displacement against the last smoothed position is pushed into the
history, the smoothed pose is computed and the stability state updated, and
the smoothed values are stored for the next call. -/
def PoseFilter.filter (dist : Vec3 → Vec3 → ℚ) (slerpQuaternions : Quat → Quat → ℚ → Quat)
    (st : PoseFilterState) (position : Vec3) (rotation : Quat) (now : ℚ) :
    PoseFilterState × FilterResult :=
  match st.lastPosition, st.lastRotation with
  | some lastPosition, some _ =>
      let positionDelta := dist position lastPosition
      let velocityHistory := updateVelocityHistory st.velocityHistory positionDelta
      let smoothedPosition := smoothPosition st position
      let smoothedRotation := smoothRotation slerpQuaternions st rotation
      let stab := updateStabilityState st.options velocityHistory
        st.stabilizationStartTime positionDelta now
      ({ st with
          lastPosition := some smoothedPosition
          lastRotation := some smoothedRotation
          velocityHistory := velocityHistory
          stabilizationStartTime := stab.1
          isStable := stab.2 },
        { position := smoothedPosition, rotation := smoothedRotation, isStable := stab.2 })
  | _, _ =>
      ({ st with
          lastPosition := some position
          lastRotation := some rotation
          stabilizationStartTime := some now },
        { position := position, rotation := rotation, isStable := false })

/-- `PoseFilter.reset`: clear all state unconditionally. -/
def PoseFilter.reset (st : PoseFilterState) : PoseFilterState where
  options := st.options
  lastPosition := none
  lastRotation := none
  velocityHistory := []
  stabilizationStartTime := none
  isStable := false

/-- Euclidean distance restricted to inputs that differ only in `x`, where
`Vector3.distanceTo` equals `|ax - bx|` exactly.  Used for concrete runs. -/
def distX : Vec3 → Vec3 → ℚ := fun a b => |a.x - b.x|

/-- Stand-in for `slerpQuaternions` on concrete runs whose quaternions are all
equal: three.js slerp of a quaternion with itself returns that quaternion. -/
def slerpKeep : Quat → Quat → ℚ → Quat := fun newRotation _ _ => newRotation

/-- The identity quaternion. -/
def qId : Quat := { x := 0, y := 0, z := 0, w := 1 }

/-- Convexity of the per-axis exponential moving average. -/
theorem ema_mem_interval (a b t : ℚ) (h0 : 0 ≤ t) (h1 : t ≤ 1) :
    min a b ≤ a * t + b * (1 - t) ∧ a * t + b * (1 - t) ≤ max a b := by
  constructor
  · have ha : min a b * t ≤ a * t := mul_le_mul_of_nonneg_right (min_le_left a b) h0
    have hb : min a b * (1 - t) ≤ b * (1 - t) :=
      mul_le_mul_of_nonneg_right (min_le_right a b) (by linarith)
    nlinarith
  · have ha : a * t ≤ max a b * t := mul_le_mul_of_nonneg_right (le_max_left a b) h0
    have hb : b * (1 - t) ≤ max a b * (1 - t) :=
      mul_le_mul_of_nonneg_right (le_max_right a b) (by linarith)
    nlinarith

/-- C2: on every call to `PoseFilter.filter` after the first, with the
position-smoothing factor `α` in `[0,1]`, each coordinate of the returned
smoothed position equals `previousSmoothed * α + raw * (1 - α)` and lies in
the closed interval between the previous smoothed coordinate and the raw
coordinate; in particular the default-options run fed `(0,0,0)` then
`(1,0,0)` returns `(0.2, 0, 0)` on the second call (see the witness). -/
theorem c2_smoothing_convex_combination
    (dist : Vec3 → Vec3 → ℚ) (slerpQuaternions : Quat → Quat → ℚ → Quat)
    (st : PoseFilterState) (position : Vec3) (rotation : Quat) (now : ℚ)
    (lp : Vec3) (lr : Quat)
    (hlp : st.lastPosition = some lp) (hlr : st.lastRotation = some lr)
    (h0 : 0 ≤ st.options.positionSmoothingFactor)
    (h1 : st.options.positionSmoothingFactor ≤ 1) :
    ((PoseFilter.filter dist slerpQuaternions st position rotation now).2.position =
      { x := lp.x * st.options.positionSmoothingFactor +
             position.x * (1 - st.options.positionSmoothingFactor)
        y := lp.y * st.options.positionSmoothingFactor +
             position.y * (1 - st.options.positionSmoothingFactor)
        z := lp.z * st.options.positionSmoothingFactor +
             position.z * (1 - st.options.positionSmoothingFactor) }) ∧
    (min lp.x position.x ≤
        (PoseFilter.filter dist slerpQuaternions st position rotation now).2.position.x ∧
      (PoseFilter.filter dist slerpQuaternions st position rotation now).2.position.x ≤
        max lp.x position.x) ∧
    (min lp.y position.y ≤
        (PoseFilter.filter dist slerpQuaternions st position rotation now).2.position.y ∧
      (PoseFilter.filter dist slerpQuaternions st position rotation now).2.position.y ≤
        max lp.y position.y) ∧
    (min lp.z position.z ≤
        (PoseFilter.filter dist slerpQuaternions st position rotation now).2.position.z ∧
      (PoseFilter.filter dist slerpQuaternions st position rotation now).2.position.z ≤
        max lp.z position.z) := by
  have hout : (PoseFilter.filter dist slerpQuaternions st position rotation now).2.position =
      smoothPosition st position := by
    rw [PoseFilter.filter, hlp, hlr]
  have hsm : smoothPosition st position =
      { x := lp.x * st.options.positionSmoothingFactor +
             position.x * (1 - st.options.positionSmoothingFactor)
        y := lp.y * st.options.positionSmoothingFactor +
             position.y * (1 - st.options.positionSmoothingFactor)
        z := lp.z * st.options.positionSmoothingFactor +
             position.z * (1 - st.options.positionSmoothingFactor) } := by
    rw [smoothPosition, hlp]
  rw [hout, hsm]
  refine ⟨rfl, ?_, ?_, ?_⟩
  · exact ema_mem_interval lp.x position.x _ h0 h1
  · exact ema_mem_interval lp.y position.y _ h0 h1
  · exact ema_mem_interval lp.z position.z _ h0 h1

/-- Filter state after the first (default-options) call with raw position
`(0,0,0)` at time 1. -/
def c2FirstState : PoseFilterState :=
  (PoseFilter.filter distX slerpKeep PoseFilter.init { x := 0, y := 0, z := 0 } qId 1).1

/-- Witness for C2: the second default-options call fed raw `(1,0,0)` returns
the convex combination `(0.2, 0, 0)`. -/
theorem c2_smoothing_convex_combination_witness :
    (PoseFilter.filter distX slerpKeep c2FirstState { x := 1, y := 0, z := 0 } qId 2).2.position =
      { x := 1 / 5, y := 0, z := 0 } := by
  have h := (c2_smoothing_convex_combination distX slerpKeep c2FirstState
    { x := 1, y := 0, z := 0 } qId 2 { x := 0, y := 0, z := 0 } qId
    rfl rfl (by norm_num [c2FirstState, PoseFilter.filter, PoseFilter.init,
      PoseFilter.initWith, defaultPoseFilterOptions])
    (by norm_num [c2FirstState, PoseFilter.filter, PoseFilter.init,
      PoseFilter.initWith, defaultPoseFilterOptions])).1
  rw [h]
  norm_num [c2FirstState, PoseFilter.filter, PoseFilter.init,
    PoseFilter.initWith, defaultPoseFilterOptions]

/-- The `TrackingState` enumeration. -/
inductive TrackingState
  | not_tracking
  | limited
  | tracking
  deriving DecidableEq, Repr

/-- Orientation classification of a detected plane. -/
inductive PlaneOrientation
  | horizontal
  | vertical
  deriving DecidableEq, Repr

/-- A filtered pose: position plus orientation quaternion. -/
structure Pose where
  position : Vec3
  orientation : Quat
  deriving DecidableEq, Repr

/-- The `PlaneData` record from src/src/types/index.ts. -/
structure PlaneData where
  id : String
  pose : Pose
  polygon : List Vec3
  orientation : PlaneOrientation
  lastUpdate : ℚ
  deriving DecidableEq, Repr

/-- State of a `PlaneTracker`: the plane map (a JavaScript `Map`, modelled as
an insertion-ordered association list), the single `poseFilter` created once
in the constructor and shared by every plane, and the current tracking state.
Session handles (`xrSession` and friends) carry no data the claims touch and
are omitted. -/
structure PlaneTrackerState where
  planes : List (String × PlaneData)
  poseFilter : PoseFilterState
  trackingState : TrackingState
  deriving DecidableEq, Repr

/-- Notifications dispatched through the tracker's callbacks. -/
inductive TrackerEvent
  | planeDetected (plane : PlaneData)
  | trackingStateChanged (state : TrackingState)
  deriving DecidableEq, Repr

/-- State of `new PlaneTracker()`. -/
def PlaneTracker.init : PlaneTrackerState where
  planes := []
  poseFilter := PoseFilter.init
  trackingState := TrackingState.not_tracking

/-- `Map.get`: first entry with the given key. -/
def jsMapGet {α : Type} (m : List (String × α)) (k : String) : Option α :=
  (m.find? fun e => e.1 == k).map Prod.snd

/-- `Map.set`: replace in place when the key exists, append otherwise. -/
def jsMapSet {α : Type} (m : List (String × α)) (k : String) (v : α) :
    List (String × α) :=
  if m.any fun e => e.1 == k then
    m.map fun e => if e.1 == k then (k, v) else e
  else m ++ [(k, v)]

/-- `Map.delete`: drop every entry with the given key. -/
def jsMapDelete {α : Type} (m : List (String × α)) (k : String) :
    List (String × α) :=
  m.filter fun e => !(e.1 == k)

/-- A raw per-frame plane sample from `frame.detectedPlanes`, already converted
from the `XRPose` transform matrix to a position and orientation quaternion
(the matrix decomposition itself is not modelled; no claim depends on it).
`polygon` is the optional boundary point list. -/
structure XRPlaneSample where
  planeId : String
  position : Vec3
  orientation : Quat
  polygon : Option (List (ℚ × ℚ))
  deriving DecidableEq, Repr

/-- Cross product of two vectors. -/
def Vec3.cross (a b : Vec3) : Vec3 where
  x := a.y * b.z - a.z * b.y
  y := a.z * b.x - a.x * b.z
  z := a.x * b.y - a.y * b.x

/-- Componentwise sum. -/
def Vec3.add (a b : Vec3) : Vec3 where
  x := a.x + b.x
  y := a.y + b.y
  z := a.z + b.z

/-- Scalar multiple. -/
def Vec3.scale (c : ℚ) (a : Vec3) : Vec3 where
  x := c * a.x
  y := c * a.y
  z := c * a.z

/-- three.js `Vector3.applyQuaternion`. -/
def Vec3.applyQuaternion (v : Vec3) (q : Quat) : Vec3 :=
  let qv : Vec3 := { x := q.x, y := q.y, z := q.z }
  let t := Vec3.scale 2 (Vec3.cross qv v)
  Vec3.add v (Vec3.add (Vec3.scale q.w t) (Vec3.cross qv t))

/-- `PlaneTracker.extractPlanePolygon`: the supplied boundary points, or a
default 2m by 2m square when the subsystem provides none. -/
def extractPlanePolygon (polygon : Option (List (ℚ × ℚ))) : List Vec3 :=
  match polygon with
  | some points => points.map fun p => { x := p.1, y := 0, z := p.2 }
  | none =>
      [{ x := -1, y := 0, z := -1 }, { x := 1, y := 0, z := -1 },
       { x := 1, y := 0, z := 1 }, { x := -1, y := 0, z := 1 }]

/-- First half of the `detectedPlanes.forEach` loop body in
`PlaneTracker.updatePlaneDetection`: run the raw pose through the shared
`poseFilter`, classify orientation from the filtered normal (`vertical` when
the rotated `(0,0,1)` has `|y| < 0.5`) and build the `planeData` record with
`lastUpdate := now`. -/
def samplePlaneData (dist : Vec3 → Vec3 → ℚ) (slerpQuaternions : Quat → Quat → ℚ → Quat)
    (st : PlaneTrackerState) (now : ℚ) (sample : XRPlaneSample) : PlaneData :=
  let filtered := PoseFilter.filter dist slerpQuaternions st.poseFilter
    sample.position sample.orientation now
  let normal := Vec3.applyQuaternion { x := 0, y := 0, z := 1 } filtered.2.rotation
  let isVertical := |normal.y| < 1 / 2
  { id := sample.planeId
    pose := { position := filtered.2.position, orientation := filtered.2.rotation }
    polygon := extractPlanePolygon sample.polygon
    orientation := if isVertical then PlaneOrientation.vertical else PlaneOrientation.horizontal
    lastUpdate := now }

/-- Continuation of the loop body: advance the shared filter, store the plane
record, and notify on first detection. -/
def processSample (dist : Vec3 → Vec3 → ℚ) (slerpQuaternions : Quat → Quat → ℚ → Quat)
    (st : PlaneTrackerState) (now : ℚ) (sample : XRPlaneSample) :
    PlaneTrackerState × List TrackerEvent :=
  let planeData := samplePlaneData dist slerpQuaternions st now sample
  let st2 : PlaneTrackerState :=
    { st with
        poseFilter := (PoseFilter.filter dist slerpQuaternions st.poseFilter
          sample.position sample.orientation now).1
        planes := jsMapSet st.planes sample.planeId planeData }
  match jsMapGet st.planes sample.planeId with
  | none => (st2, [TrackerEvent.planeDetected planeData])
  | some _ => (st2, [])

/-- `PlaneTracker.cleanupOldPlanes`: delete every plane whose
`now - lastUpdate` exceeds the 10 s staleness timeout. -/
def cleanupOldPlanes (st : PlaneTrackerState) (now : ℚ) : PlaneTrackerState :=
  { st with planes := st.planes.filter fun e => !(decide (now - e.2.lastUpdate > 10000)) }

/-- `PlaneTracker.updatePlaneDetection`: return unchanged when the frame has no
`detectedPlanes`; otherwise process every sample in order and then run the
staleness sweep. -/
def updatePlaneDetection (dist : Vec3 → Vec3 → ℚ) (slerpQuaternions : Quat → Quat → ℚ → Quat)
    (st : PlaneTrackerState) (now : ℚ) (detectedPlanes : Option (List XRPlaneSample)) :
    PlaneTrackerState × List TrackerEvent :=
  match detectedPlanes with
  | none => (st, [])
  | some samples =>
      let processed := samples.foldl
        (fun acc s =>
          let r := processSample dist slerpQuaternions acc.1 now s
          (r.1, acc.2 ++ r.2))
        (st, ([] : List TrackerEvent))
      (cleanupOldPlanes processed.1 now, processed.2)

/-- `PlaneTracker.updateTrackingState`: store the new value and notify exactly
when it differs from the held value. -/
def updateTrackingState (st : PlaneTrackerState) (newState : TrackingState) :
    PlaneTrackerState × List TrackerEvent :=
  if st.trackingState ≠ newState then
    ({ st with trackingState := newState }, [TrackerEvent.trackingStateChanged newState])
  else (st, [])

/-- The active planes at time `now`: those seen within the last 5 s. -/
def activePlanes (st : PlaneTrackerState) (now : ℚ) : List PlaneData :=
  (st.planes.map Prod.snd).filter fun plane => decide (now - plane.lastUpdate < 5000)

/-- `PlaneTracker.updateTrackingStability`: recompute the tracking state from
the active planes (the local `activeePlanes` of the source is the definition
`activePlanes`). -/
def updateTrackingStability (st : PlaneTrackerState) (now : ℚ) :
    PlaneTrackerState × List TrackerEvent :=
  if (activePlanes st now).length = 0 then
    updateTrackingState st TrackingState.not_tracking
  else if (activePlanes st now).any fun plane =>
      plane.orientation == PlaneOrientation.vertical then
    updateTrackingState st TrackingState.tracking
  else updateTrackingState st TrackingState.limited

/-- `PlaneTracker.updateHitTest`: with no hit test source (`none`) do nothing;
otherwise request `tracking` when the frame has hit results and `limited`
otherwise. -/
def updateHitTest (st : PlaneTrackerState) (hitTestResults : Option (List Vec3)) :
    PlaneTrackerState × List TrackerEvent :=
  match hitTestResults with
  | none => (st, [])
  | some results =>
      if results.length > 0 then updateTrackingState st TrackingState.tracking
      else updateTrackingState st TrackingState.limited

/-- `PlaneTracker.onSessionEnd`: clear the plane map and force `not_tracking`
through `updateTrackingState`.  The shared `poseFilter` is left untouched. -/
def onSessionEnd (st : PlaneTrackerState) : PlaneTrackerState × List TrackerEvent :=
  let cleared : PlaneTrackerState := { st with planes := [] }
  updateTrackingState cleared TrackingState.not_tracking

/-- `PlaneTracker.getDetectedPlanes`: `Array.from(this.planes.values())`. -/
def getDetectedPlanes (st : PlaneTrackerState) : List PlaneData :=
  st.planes.map Prod.snd

/-- Spec-side recomputation rule, written from the specification text: empty
active set yields `not_tracking`, any active vertical surface yields
`tracking`, otherwise `limited`.  Compared against the implementation in C4. -/
def specRecomputeTrackingState (active : List PlaneData) : TrackingState :=
  if active.isEmpty then TrackingState.not_tracking
  else if active.any fun plane => plane.orientation == PlaneOrientation.vertical then
    TrackingState.tracking
  else TrackingState.limited

/-- Fold a list of recompute requests through `updateTrackingState`,
collecting the notifications. -/
def runRecompute (st : PlaneTrackerState) : List TrackingState →
    PlaneTrackerState × List TrackerEvent
  | [] => (st, [])
  | n :: ns =>
      let r := updateTrackingState st n
      let rest := runRecompute r.1 ns
      (rest.1, r.2 ++ rest.2)

/-- The declarative notification trace: one event per actual value change. -/
def transitionsFrom (prev : TrackingState) : List TrackingState → List TrackerEvent
  | [] => []
  | n :: ns =>
      if prev = n then transitionsFrom prev ns
      else TrackerEvent.trackingStateChanged n :: transitionsFrom n ns

/-- Finding the written key in the replace-in-place branch of `Map.set`. -/
theorem find?_map_set {α : Type} (k : String) (v : α) :
    ∀ m : List (String × α), (m.any fun e => e.1 == k) = true →
    ((m.map fun e => if e.1 == k then (k, v) else e).find? fun e => e.1 == k) =
      some (k, v) := by
  intro m
  induction m with
  | nil => intro h; simp at h
  | cons e m ih =>
      intro hany
      rw [List.map_cons]
      by_cases he : (e.1 == k) = true
      · rw [if_pos he]
        simp [List.find?]
      · rw [if_neg he]
        have he2 : (e.1 == k) = false := by simpa using he
        simp only [List.find?, he2]
        apply ih
        rcases List.any_eq_true.mp hany with ⟨a, ha, hpa⟩
        rcases List.mem_cons.mp ha with h1 | h2
        · exact absurd (h1 ▸ hpa) he
        · exact List.any_eq_true.mpr ⟨a, h2, hpa⟩

/-- Looking up the key just written by `Map.set` yields the written value. -/
theorem jsMapGet_set_self {α : Type} (m : List (String × α)) (k : String) (v : α) :
    jsMapGet (jsMapSet m k v) k = some v := by
  rw [jsMapSet]
  by_cases hany : (m.any fun e => e.1 == k) = true
  · rw [if_pos hany, jsMapGet, find?_map_set k v m hany]
    rfl
  · rw [if_neg hany, jsMapGet, List.find?_append]
    have h1 : (m.find? fun e => e.1 == k) = none := by
      rw [List.find?_eq_none]
      intro e he hpa
      exact hany (List.any_eq_true.mpr ⟨e, he, hpa⟩)
    rw [h1]
    simp [List.find?]

/-- The other keys are untouched by the replace-in-place branch of `Map.set`. -/
theorem find?_map_set_ne {α : Type} (k k2 : String) (v : α) (hne : k2 ≠ k) :
    ∀ m : List (String × α),
    ((m.map fun e => if e.1 == k then (k, v) else e).find? fun e => e.1 == k2) =
      m.find? fun e => e.1 == k2 := by
  intro m
  induction m with
  | nil => rfl
  | cons e m ih =>
      rw [List.map_cons]
      by_cases he : (e.1 == k) = true
      · have hek : e.1 = k := eq_of_beq he
        have h1 : ((k : String) == k2) = false :=
          beq_eq_false_iff_ne.mpr fun h => hne h.symm
        have h2 : (e.1 == k2) = false := by rw [hek]; exact h1
        rw [if_pos he]
        simp only [List.find?, h1, h2]
        exact ih
      · rw [if_neg he]
        by_cases he2 : (e.1 == k2) = true
        · simp only [List.find?, he2]
        · have he3 : (e.1 == k2) = false := by simpa using he2
          simp only [List.find?, he3]
          exact ih

/-- `Map.set` leaves every other key unchanged. -/
theorem jsMapGet_set_ne {α : Type} (m : List (String × α)) (k k2 : String) (v : α)
    (hne : k2 ≠ k) : jsMapGet (jsMapSet m k v) k2 = jsMapGet m k2 := by
  rw [jsMapSet]
  by_cases hany : (m.any fun e => e.1 == k) = true
  · rw [if_pos hany, jsMapGet, find?_map_set_ne k k2 v hne m, jsMapGet]
  · rw [if_neg hany, jsMapGet, List.find?_append]
    have h2 : (([(k, v)]).find? fun e => e.1 == k2) = none := by
      simp [List.find?, beq_eq_false_iff_ne.mpr fun h => hne h.symm]
    rw [h2]
    simp [jsMapGet]

/-- Deleting a key makes it absent. -/
theorem jsMapGet_delete_self {α : Type} (m : List (String × α)) (k : String) :
    jsMapGet (jsMapDelete m k) k = none := by
  rw [jsMapDelete, jsMapGet]
  have h : ((m.filter fun e => !(e.1 == k)).find? fun e => e.1 == k) = none := by
    rw [List.find?_eq_none]
    intro e he hpa
    have hkeep := (List.mem_filter.mp he).2
    rw [hpa] at hkeep
    simp at hkeep
  rw [h]
  rfl

/-- When the key is already present, `Map.set` preserves the ordered key list. -/
theorem jsMapSet_keys_of_mem {α : Type} (m : List (String × α)) (k : String) (v : α)
    (hany : (m.any fun e => e.1 == k) = true) :
    (jsMapSet m k v).map Prod.fst = m.map Prod.fst := by
  rw [jsMapSet, if_pos hany, List.map_map]
  apply List.map_congr_left
  intro e _
  by_cases he : (e.1 == k) = true
  · have hek : e.1 = k := eq_of_beq he
    simp [Function.comp, he, hek]
  · have hek : ¬ e.1 = k := by simpa using he
    simp [Function.comp, hek]

/-- The state stored by `updateTrackingState` always holds the requested value. -/
theorem updateTrackingState_trackingState (st : PlaneTrackerState) (n : TrackingState) :
    (updateTrackingState st n).1.trackingState = n := by
  by_cases h : st.trackingState = n
  · simp [updateTrackingState, h]
  · simp [updateTrackingState, h]

/-- The recomputed tracking value agrees with the spec-side recomputation rule. -/
theorem updateTrackingStability_trackingState (st : PlaneTrackerState) (now : ℚ) :
    (updateTrackingStability st now).1.trackingState =
      specRecomputeTrackingState (activePlanes st now) := by
  rw [updateTrackingStability, specRecomputeTrackingState]
  by_cases h0 : (activePlanes st now).length = 0
  · have : (activePlanes st now).isEmpty = true := by
      simpa [List.isEmpty_iff, List.length_eq_zero] using h0
    rw [if_pos h0, if_pos this]
    exact updateTrackingState_trackingState st TrackingState.not_tracking
  · have : ¬ (activePlanes st now).isEmpty = true := by
      simpa [List.isEmpty_iff, List.length_eq_zero] using h0
    rw [if_neg h0, if_neg this]
    by_cases hany : ((activePlanes st now).any fun plane =>
        plane.orientation == PlaneOrientation.vertical) = true
    · rw [if_pos hany, if_pos hany]
      exact updateTrackingState_trackingState st TrackingState.tracking
    · rw [if_neg hany, if_neg hany]
      exact updateTrackingState_trackingState st TrackingState.limited

/-- C4: the recompute step `updateTrackingStability` yields a tracking value
that is a pure function of the active-plane set (planes with
`now - lastSeenAt < 5 s`): `not_tracking` when that set is empty, `tracking`
when it contains a vertical plane, and `limited` otherwise; two states with
identical active sets recompute identical values. -/
theorem c4_recompute_pure_function (st : PlaneTrackerState) (now : ℚ) :
    ((updateTrackingStability st now).1.trackingState =
      specRecomputeTrackingState (activePlanes st now)) ∧
    (∀ st2 now2, activePlanes st2 now2 = activePlanes st now →
      (updateTrackingStability st2 now2).1.trackingState =
        (updateTrackingStability st now).1.trackingState) := by
  refine ⟨updateTrackingStability_trackingState st now, ?_⟩
  intro st2 now2 hact
  rw [updateTrackingStability_trackingState st2 now2,
    updateTrackingStability_trackingState st now, hact]

/-- An old vertical plane, last seen at time 0. -/
def c4Plane : PlaneData where
  id := "p"
  pose := { position := { x := 0, y := 0, z := 0 }, orientation := qId }
  polygon := []
  orientation := PlaneOrientation.vertical
  lastUpdate := 0

/-- A tracker state holding only `c4Plane`. -/
def c4StA : PlaneTrackerState where
  planes := [("p", c4Plane)]
  poseFilter := PoseFilter.init
  trackingState := TrackingState.tracking

/-- Witness for C4: at time 20000 the plane of `c4StA` is inactive, so the
recompute on `c4StA` agrees with the recompute on the empty initial registry. -/
theorem c4_recompute_pure_function_witness :
    (updateTrackingStability c4StA 20000).1.trackingState =
      (updateTrackingStability PlaneTracker.init 0).1.trackingState := by
  exact (c4_recompute_pure_function PlaneTracker.init 0).2 c4StA 20000
    (by norm_num [activePlanes, c4StA, PlaneTracker.init, c4Plane, List.filter])

/-- Tracking state is never modified by the plane-sample processing step. -/
theorem processSample_trackingState (dist : Vec3 → Vec3 → ℚ)
    (slerpQuaternions : Quat → Quat → ℚ → Quat) (st : PlaneTrackerState) (now : ℚ)
    (sample : XRPlaneSample) :
    (processSample dist slerpQuaternions st now sample).1.trackingState =
      st.trackingState := by
  rw [processSample]
  cases jsMapGet st.planes sample.planeId <;> rfl

/-- Tracking state is never modified by the sample fold of
`updatePlaneDetection`. -/
theorem foldSamples_trackingState (dist : Vec3 → Vec3 → ℚ)
    (slerpQuaternions : Quat → Quat → ℚ → Quat) (now : ℚ) :
    ∀ (samples : List XRPlaneSample) (acc : PlaneTrackerState × List TrackerEvent),
    (samples.foldl
      (fun acc s =>
        let r := processSample dist slerpQuaternions acc.1 now s
        (r.1, acc.2 ++ r.2))
      acc).1.trackingState = acc.1.trackingState := by
  intro samples
  induction samples with
  | nil => intro acc; rfl
  | cons s samples ih =>
      intro acc
      rw [List.foldl_cons, ih]
      exact processSample_trackingState dist slerpQuaternions acc.1 now s

/-- C5: the "tracking state changed" notification fires exactly once per
actual value transition.  Conjuncts: over any sequence of recompute requests
the emitted notifications are exactly the declarative change list (one event
per value change, none for a recomputation yielding the held value); a single
`updateTrackingState` emits the change event exactly when the value differs
and stores the requested value; `updateHitTest` and `updateTrackingStability`
change the value only through `updateTrackingState`; and plane ingestion and
the staleness sweep never touch the value. -/
theorem c5_tracking_state_transition_events :
    (∀ (st : PlaneTrackerState) (ns : List TrackingState),
      (runRecompute st ns).2 = transitionsFrom st.trackingState ns) ∧
    (∀ (st : PlaneTrackerState) (n : TrackingState),
      (updateTrackingState st n).2 =
        if st.trackingState = n then []
        else [TrackerEvent.trackingStateChanged n]) ∧
    (∀ (st : PlaneTrackerState) (n : TrackingState),
      (updateTrackingState st n).1.trackingState = n) ∧
    (∀ (st : PlaneTrackerState) (hits : Option (List Vec3)),
      updateHitTest st hits = (st, []) ∨
      ∃ n, updateHitTest st hits = updateTrackingState st n) ∧
    (∀ (st : PlaneTrackerState) (now : ℚ),
      ∃ n, updateTrackingStability st now = updateTrackingState st n) ∧
    (∀ (dist : Vec3 → Vec3 → ℚ) (slerpQuaternions : Quat → Quat → ℚ → Quat)
      (st : PlaneTrackerState) (now : ℚ) (dp : Option (List XRPlaneSample)),
      (updatePlaneDetection dist slerpQuaternions st now dp).1.trackingState =
        st.trackingState) ∧
    (∀ (st : PlaneTrackerState) (now : ℚ),
      (cleanupOldPlanes st now).trackingState = st.trackingState) := by
  refine ⟨?_, ?_, updateTrackingState_trackingState, ?_, ?_, ?_, ?_⟩
  · intro st ns
    induction ns generalizing st with
    | nil => rfl
    | cons n ns ih =>
        rw [runRecompute, transitionsFrom]
        by_cases h : st.trackingState = n
        · have hupd : updateTrackingState st n = (st, []) := by
            simp [updateTrackingState, h]
          rw [if_pos h, hupd]
          simpa [h] using ih st
        · have hupd : updateTrackingState st n =
              ({ st with trackingState := n }, [TrackerEvent.trackingStateChanged n]) := by
            simp [updateTrackingState, h]
          rw [if_neg h, hupd]
          simpa using ih { st with trackingState := n }
  · intro st n
    by_cases h : st.trackingState = n
    · simp [updateTrackingState, h]
    · simp [updateTrackingState, h]
  · intro st hits
    cases hits with
    | none => exact Or.inl rfl
    | some results =>
        rw [updateHitTest]
        by_cases h : results.length > 0
        · exact Or.inr ⟨TrackingState.tracking, by rw [if_pos h]⟩
        · exact Or.inr ⟨TrackingState.limited, by rw [if_neg h]⟩
  · intro st now
    rw [updateTrackingStability]
    by_cases h0 : (activePlanes st now).length = 0
    · exact ⟨TrackingState.not_tracking, by rw [if_pos h0]⟩
    · by_cases hany : ((activePlanes st now).any fun plane =>
          plane.orientation == PlaneOrientation.vertical) = true
      · exact ⟨TrackingState.tracking, by rw [if_neg h0, if_pos hany]⟩
      · exact ⟨TrackingState.limited, by rw [if_neg h0, if_neg hany]⟩
  · intro dist slerpQuaternions st now dp
    cases dp with
    | none => rfl
    | some samples =>
        rw [updatePlaneDetection]
        have h := foldSamples_trackingState dist slerpQuaternions now samples
          (st, ([] : List TrackerEvent))
        simpa [cleanupOldPlanes] using h
  · intro st now
    rfl

/-- C6: for every surface in the registry and sweep at time `now`, a surface
with `now - lastSeenAt` greater than the 10 s staleness threshold is absent
from `getDetectedPlanes` after the sweep, while a surface with
`now - lastSeenAt` greater than the 5 s active window but not greater than
the staleness threshold survives the sweep into the returned snapshot yet is
excluded from the active set that drives the tracking-state computation. -/
theorem c6_staleness_and_active_windows (st : PlaneTrackerState) (now : ℚ)
    (id : String) (p : PlaneData) (hmem : (id, p) ∈ st.planes) :
    (now - p.lastUpdate > 10000 → p ∉ getDetectedPlanes (cleanupOldPlanes st now)) ∧
    (now - p.lastUpdate > 5000 → ¬ now - p.lastUpdate > 10000 →
      p ∈ getDetectedPlanes (cleanupOldPlanes st now) ∧
      p ∉ activePlanes (cleanupOldPlanes st now) now) := by
  constructor
  · intro hstale hin
    have hin2 : p ∈ (st.planes.filter fun e =>
        !(decide (now - e.2.lastUpdate > 10000))).map Prod.snd := hin
    rcases List.mem_map.mp hin2 with ⟨e, he, hep⟩
    have hkeep := (List.mem_filter.mp he).2
    rw [hep] at hkeep
    simp only [Bool.not_eq_true', decide_eq_false_iff_not] at hkeep
    exact hkeep hstale
  · intro h5 h10
    have hsurvive : p ∈ getDetectedPlanes (cleanupOldPlanes st now) :=
      List.mem_map.mpr ⟨(id, p), List.mem_filter.mpr ⟨hmem, by simpa using h10⟩, rfl⟩
    refine ⟨hsurvive, ?_⟩
    intro hin
    have hact : p ∈ (getDetectedPlanes (cleanupOldPlanes st now)).filter
        fun plane => decide (now - plane.lastUpdate < 5000) := hin
    have := (List.mem_filter.mp hact).2
    have hlt : now - p.lastUpdate < 5000 := of_decide_eq_true this
    linarith

/-- A horizontal plane last seen at time 0. -/
def c6Plane : PlaneData where
  id := "q"
  pose := { position := { x := 0, y := 0, z := 0 }, orientation := qId }
  polygon := []
  orientation := PlaneOrientation.horizontal
  lastUpdate := 0

/-- A registry holding only `c6Plane`. -/
def c6St : PlaneTrackerState where
  planes := [("q", c6Plane)]
  poseFilter := PoseFilter.init
  trackingState := TrackingState.limited

/-- Witness for C6: at `now = 6000` the plane aged 6 s survives the sweep
into the snapshot but is excluded from the active set. -/
theorem c6_staleness_and_active_windows_witness :
    c6Plane ∈ getDetectedPlanes (cleanupOldPlanes c6St 6000) ∧
    c6Plane ∉ activePlanes (cleanupOldPlanes c6St 6000) 6000 :=
  (c6_staleness_and_active_windows c6St 6000 "q" c6Plane (by simp [c6St])).2
    (by norm_num [c6Plane]) (by norm_num [c6Plane])

/-- C7 (amended): session end atomically empties the plane registry (so no
pre-end surface is observable through `getDetectedPlanes`), forces the
tracking state to `not_tracking`, and emits the state-change notification
exactly when the prior state differed; however, the shared pose filter is
left entirely untouched, so the next `filter` call is not treated as a first
call but smooths against pre-end filter state (see `c7_counterexample`). -/
theorem c7_session_end_behaviour (st : PlaneTrackerState) :
    ((onSessionEnd st).1.planes = []) ∧
    (getDetectedPlanes (onSessionEnd st).1 = []) ∧
    ((onSessionEnd st).1.trackingState = TrackingState.not_tracking) ∧
    ((onSessionEnd st).2 =
      if st.trackingState = TrackingState.not_tracking then []
      else [TrackerEvent.trackingStateChanged TrackingState.not_tracking]) ∧
    ((onSessionEnd st).1.poseFilter = st.poseFilter) := by
  by_cases h : st.trackingState = TrackingState.not_tracking
  · simp [onSessionEnd, updateTrackingState, getDetectedPlanes, h]
  · simp [onSessionEnd, updateTrackingState, getDetectedPlanes, h]

/-- First raw sample for surface "a": raw position `(0,0,0)` at time 1. -/
def c7SampleA : XRPlaneSample where
  planeId := "a"
  position := { x := 0, y := 0, z := 0 }
  orientation := qId
  polygon := none

/-- Post-session-end raw sample for a fresh surface "c": raw position
`(1,0,0)` at time 2. -/
def c7SampleC : XRPlaneSample where
  planeId := "c"
  position := { x := 1, y := 0, z := 0 }
  orientation := qId
  polygon := none

/-- Tracker state after ingesting `c7SampleA` at time 1. -/
def c7StPre : PlaneTrackerState :=
  (updatePlaneDetection distX slerpKeep PlaneTracker.init 1 (some [c7SampleA])).1

/-- Tracker state immediately after session end. -/
def c7StEnd : PlaneTrackerState := (onSessionEnd c7StPre).1

/-- Tracker state after the first post-end ingest, `c7SampleC` at time 2. -/
def c7StNext : PlaneTrackerState :=
  (updatePlaneDetection distX slerpKeep c7StEnd 2 (some [c7SampleC])).1

/-- Session end never touches the shared pose filter. -/
theorem onSessionEnd_poseFilter (st : PlaneTrackerState) :
    (onSessionEnd st).1.poseFilter = st.poseFilter := by
  by_cases h : st.trackingState = TrackingState.not_tracking
  · simp [onSessionEnd, updateTrackingState, h]
  · simp [onSessionEnd, updateTrackingState, h]

/-- C7 counterexample: session end does not clear the shared filter state —
after `onSessionEnd` the filter still remembers the pre-end smoothed position
`(0,0,0)` (its state is not the reset state), and the next ingested sample
(raw position `(1,0,0)`, for a fresh identifier) is smoothed against it,
yielding the stored position `(0.2, 0, 0)` instead of the raw `(1, 0, 0)`
that a true first call would return. -/
theorem c7_counterexample :
    c7StEnd.poseFilter.lastPosition = some { x := 0, y := 0, z := 0 } ∧
    c7StEnd.poseFilter ≠ PoseFilter.reset c7StPre.poseFilter ∧
    ((jsMapGet c7StNext.planes "c").map fun p => p.pose.position) =
      some { x := 1 / 5, y := 0, z := 0 } ∧
    ({ x := 1 / 5, y := 0, z := 0 } : Vec3) ≠ { x := 1, y := 0, z := 0 } := by
  have hpreFull : c7StPre =
      { planes := [("a",
          { id := "a"
            pose := { position := { x := 0, y := 0, z := 0 }, orientation := qId }
            polygon := extractPlanePolygon none
            orientation := PlaneOrientation.vertical
            lastUpdate := 1 })]
        poseFilter :=
          { options := defaultPoseFilterOptions
            lastPosition := some { x := 0, y := 0, z := 0 }
            lastRotation := some qId
            velocityHistory := []
            stabilizationStartTime := some 1
            isStable := false }
        trackingState := TrackingState.not_tracking } := by
    norm_num [c7StPre, updatePlaneDetection, processSample, samplePlaneData,
      cleanupOldPlanes, PlaneTracker.init, PoseFilter.init, PoseFilter.initWith,
      PoseFilter.filter, c7SampleA, jsMapGet, jsMapSet, List.find?, qId,
      Vec3.applyQuaternion, Vec3.cross, Vec3.add, Vec3.scale]
  have hendFull : c7StEnd =
      { planes := []
        poseFilter :=
          { options := defaultPoseFilterOptions
            lastPosition := some { x := 0, y := 0, z := 0 }
            lastRotation := some qId
            velocityHistory := []
            stabilizationStartTime := some 1
            isStable := false }
        trackingState := TrackingState.not_tracking } := by
    rw [c7StEnd, hpreFull]
    norm_num [onSessionEnd, updateTrackingState]
  refine ⟨by rw [hendFull], ?_, ?_, by simp⟩
  · rw [hendFull, hpreFull]
    simp [PoseFilter.reset]
  · rw [c7StNext, hendFull]
    norm_num [updatePlaneDetection, processSample, samplePlaneData,
      cleanupOldPlanes, PoseFilter.filter, c7SampleC, jsMapGet, jsMapSet,
      List.find?, qId, Vec3.applyQuaternion, Vec3.cross, Vec3.add, Vec3.scale,
      smoothPosition, smoothRotation, slerpKeep, distX, updateVelocityHistory,
      updateStabilityState, jsFalsyTime, defaultPoseFilterOptions]

/-- C1 (amended): the tracker runs one `PoseFilter`, created in the
constructor and shared by every surface identifier: processing any sample
advances that single filter regardless of the sample's identifier, and the
smoothed position stored for a sample is the exponential moving average
against the shared filter's last position — state left behind by the most
recent prior sample of any identifier, not a per-identifier history. -/
theorem c1_shared_pose_filter (dist : Vec3 → Vec3 → ℚ)
    (slerpQuaternions : Quat → Quat → ℚ → Quat) (st : PlaneTrackerState)
    (now : ℚ) (sample : XRPlaneSample) :
    ((processSample dist slerpQuaternions st now sample).1.poseFilter =
      (PoseFilter.filter dist slerpQuaternions st.poseFilter
        sample.position sample.orientation now).1) ∧
    (∀ lp lr, st.poseFilter.lastPosition = some lp →
      st.poseFilter.lastRotation = some lr →
      ((jsMapGet (processSample dist slerpQuaternions st now sample).1.planes
          sample.planeId).map fun p => p.pose.position) =
        some { x := lp.x * st.poseFilter.options.positionSmoothingFactor +
                    sample.position.x * (1 - st.poseFilter.options.positionSmoothingFactor)
               y := lp.y * st.poseFilter.options.positionSmoothingFactor +
                    sample.position.y * (1 - st.poseFilter.options.positionSmoothingFactor)
               z := lp.z * st.poseFilter.options.positionSmoothingFactor +
                    sample.position.z * (1 - st.poseFilter.options.positionSmoothingFactor) }) := by
  constructor
  · rw [processSample]
    cases jsMapGet st.planes sample.planeId <;> rfl
  · intro lp lr hlp hlr
    have hplanes : (processSample dist slerpQuaternions st now sample).1.planes =
        jsMapSet st.planes sample.planeId
          (samplePlaneData dist slerpQuaternions st now sample) := by
      rw [processSample]
      cases jsMapGet st.planes sample.planeId <;> rfl
    rw [hplanes, jsMapGet_set_self]
    have hpos : (samplePlaneData dist slerpQuaternions st now sample).pose.position =
        smoothPosition st.poseFilter sample.position := by
      rw [samplePlaneData, PoseFilter.filter, hlp, hlr]
    rw [Option.map_some', hpos, smoothPosition, hlp]

/-- Sample for surface "b" used to demonstrate cross-identifier dependence:
raw position `(10,0,0)`. -/
def c1SampleB : XRPlaneSample where
  planeId := "b"
  position := { x := 10, y := 0, z := 0 }
  orientation := qId
  polygon := none

/-- Second sample for surface "a": raw position `(1,0,0)`. -/
def c1SampleA2 : XRPlaneSample where
  planeId := "a"
  position := { x := 1, y := 0, z := 0 }
  orientation := qId
  polygon := none

/-- Tracker state after ingesting surface "a" at `(0,0,0)`, time 1. -/
def c1StAfterA1 : PlaneTrackerState :=
  (updatePlaneDetection distX slerpKeep PlaneTracker.init 1 (some [c7SampleA])).1

/-- `c1StAfterA1` after additionally ingesting surface "b" at `(10,0,0)`,
time 3/2. -/
def c1StAfterB : PlaneTrackerState :=
  (updatePlaneDetection distX slerpKeep c1StAfterA1 (3 / 2) (some [c1SampleB])).1

/-- Run without the interleaved "b" sample: "a" at time 1, then "a" again at
time 2. -/
def c1RunWithoutB : PlaneTrackerState :=
  (updatePlaneDetection distX slerpKeep c1StAfterA1 2 (some [c1SampleA2])).1

/-- Run with the interleaved "b" sample: "a" at time 1, "b" at time 3/2, then
"a" again at time 2. -/
def c1RunWithB : PlaneTrackerState :=
  (updatePlaneDetection distX slerpKeep c1StAfterB 2 (some [c1SampleA2])).1

/-- Evaluated form of the state after ingesting surface "a" at time 1. -/
theorem c1StAfterA1_eq : c1StAfterA1 =
    { planes := [("a",
        { id := "a"
          pose := { position := { x := 0, y := 0, z := 0 }, orientation := qId }
          polygon := extractPlanePolygon none
          orientation := PlaneOrientation.vertical
          lastUpdate := 1 })]
      poseFilter :=
        { options := defaultPoseFilterOptions
          lastPosition := some { x := 0, y := 0, z := 0 }
          lastRotation := some qId
          velocityHistory := []
          stabilizationStartTime := some 1
          isStable := false }
      trackingState := TrackingState.not_tracking } := by
  norm_num [c1StAfterA1, updatePlaneDetection, processSample, samplePlaneData,
    cleanupOldPlanes, PlaneTracker.init, PoseFilter.init, PoseFilter.initWith,
    PoseFilter.filter, c7SampleA, jsMapGet, jsMapSet, List.find?, qId,
    Vec3.applyQuaternion, Vec3.cross, Vec3.add, Vec3.scale]

/-- Evaluated form of the state after additionally ingesting surface "b" at
time 3/2: the "b" sample was smoothed against "a"'s filter state, and the
shared filter now remembers `(2,0,0)`. -/
theorem c1StAfterB_eq : c1StAfterB =
    { planes := [("a",
        { id := "a"
          pose := { position := { x := 0, y := 0, z := 0 }, orientation := qId }
          polygon := extractPlanePolygon none
          orientation := PlaneOrientation.vertical
          lastUpdate := 1 }),
        ("b",
        { id := "b"
          pose := { position := { x := 2, y := 0, z := 0 }, orientation := qId }
          polygon := extractPlanePolygon none
          orientation := PlaneOrientation.vertical
          lastUpdate := 3 / 2 })]
      poseFilter :=
        { options := defaultPoseFilterOptions
          lastPosition := some { x := 2, y := 0, z := 0 }
          lastRotation := some qId
          velocityHistory := [10]
          stabilizationStartTime := none
          isStable := false }
      trackingState := TrackingState.not_tracking } := by
  rw [c1StAfterB, c1StAfterA1_eq]
  norm_num [updatePlaneDetection, processSample, samplePlaneData,
    cleanupOldPlanes, PoseFilter.filter, c1SampleB, jsMapGet, jsMapSet,
    List.find?, qId, Vec3.applyQuaternion, Vec3.cross, Vec3.add, Vec3.scale,
    smoothPosition, smoothRotation, slerpKeep, distX, updateVelocityHistory,
    updateStabilityState, jsFalsyTime, defaultPoseFilterOptions,
    show ("a" : String) ≠ "b" from by decide,
    show ("b" : String) ≠ "a" from by decide,
    show (("a" : String) == "b") = false from by decide,
    show (("b" : String) == "a") = false from by decide]

/-- Witness for C1 (amended): processing the sample for identifier "b" in the
state left by identifier "a" stores for "b" the blend
`0 * 0.8 + 10 * 0.2 = 2` of the two surfaces' positions. -/
theorem c1_shared_pose_filter_witness :
    ((jsMapGet (processSample distX slerpKeep c1StAfterA1 (3 / 2) c1SampleB).1.planes
        c1SampleB.planeId).map fun p => p.pose.position) =
      some { x := 2, y := 0, z := 0 } := by
  have h := (c1_shared_pose_filter distX slerpKeep c1StAfterA1 (3 / 2) c1SampleB).2
    { x := 0, y := 0, z := 0 } qId
    (by rw [c1StAfterA1_eq]) (by rw [c1StAfterA1_eq])
  rw [h, c1StAfterA1_eq]
  norm_num [c1SampleB, defaultPoseFilterOptions]

/-- C1 counterexample: the two runs ingest the identical sample history under
identifier "a" ( `(0,0,0)` at time 1, then `(1,0,0)` at time 2 ), yet the
smoothed pose stored for "a" differs depending on whether a sample for
identifier "b" was ingested in between — `(0.2,0,0)` without it, `(1.8,0,0)`
with it — so the smoothed pose for "a" does not depend only on the sample
history of "a", and the registry does not keep a separate filter per
identifier. -/
theorem c1_counterexample :
    ((jsMapGet c1RunWithoutB.planes "a").map fun p => p.pose.position) =
      some { x := 1 / 5, y := 0, z := 0 } ∧
    ((jsMapGet c1RunWithB.planes "a").map fun p => p.pose.position) =
      some { x := 9 / 5, y := 0, z := 0 } ∧
    ¬ ((jsMapGet c1RunWithB.planes "a").map fun p => p.pose.position) =
      ((jsMapGet c1RunWithoutB.planes "a").map fun p => p.pose.position) := by
  have h1 : ((jsMapGet c1RunWithoutB.planes "a").map fun p => p.pose.position) =
      some { x := 1 / 5, y := 0, z := 0 } := by
    rw [c1RunWithoutB, c1StAfterA1_eq]
    norm_num [updatePlaneDetection, processSample, samplePlaneData,
      cleanupOldPlanes, PoseFilter.filter, c1SampleA2, jsMapGet, jsMapSet,
      List.find?, qId, Vec3.applyQuaternion, Vec3.cross, Vec3.add, Vec3.scale,
      smoothPosition, smoothRotation, slerpKeep, distX, updateVelocityHistory,
      updateStabilityState, jsFalsyTime, defaultPoseFilterOptions, List.filter]
  have h2 : ((jsMapGet c1RunWithB.planes "a").map fun p => p.pose.position) =
      some { x := 9 / 5, y := 0, z := 0 } := by
    rw [c1RunWithB, c1StAfterB_eq]
    norm_num [updatePlaneDetection, processSample, samplePlaneData,
      cleanupOldPlanes, PoseFilter.filter, c1SampleA2, jsMapGet, jsMapSet,
      List.find?, qId, Vec3.applyQuaternion, Vec3.cross, Vec3.add, Vec3.scale,
      smoothPosition, smoothRotation, slerpKeep, distX, updateVelocityHistory,
      updateStabilityState, jsFalsyTime, defaultPoseFilterOptions, List.filter,
      show ("a" : String) ≠ "b" from by decide,
      show ("b" : String) ≠ "a" from by decide,
      show (("a" : String) == "b") = false from by decide,
      show (("b" : String) == "a") = false from by decide]
  refine ⟨h1, h2, ?_⟩
  rw [h1, h2]
  norm_num

/-- The `ARMode` enumeration. -/
inductive ARMode
  | frame
  | neon
  deriving DecidableEq, Repr

/-- A placed AR object: the flat JavaScript record underlying the
`FrameData | NeonData` union.  Common `ARObject` fields are always present;
kind-specific fields are optional (absent means the JavaScript property is
`undefined`).  `rotation` is a three.js `Euler`, modelled by its components. -/
structure ARObject where
  id : String
  type : ARMode
  position : Vec3
  rotation : Vec3
  scale : Vec3
  isPlaced : Bool
  planeId : Option String
  lastUpdate : ℚ
  artworkUrl : Option String
  frameStyle : Option String
  frameColor : Option String
  matColor : Option String
  width : Option ℚ
  height : Option ℚ
  text : Option String
  color : Option String
  glowIntensity : Option ℚ
  fontSize : Option ℚ
  fontFamily : Option String
  deriving DecidableEq, Repr

/-- A `Partial<FrameData | NeonData>` argument to `updateObject`: each field
is present (`some`) or absent, and a present field replaces the stored one
wholesale on spread. -/
structure ARObjectPatch where
  id : Option String := none
  type : Option ARMode := none
  position : Option Vec3 := none
  rotation : Option Vec3 := none
  scale : Option Vec3 := none
  isPlaced : Option Bool := none
  planeId : Option (Option String) := none
  lastUpdate : Option ℚ := none
  artworkUrl : Option (Option String) := none
  frameStyle : Option (Option String) := none
  frameColor : Option (Option String) := none
  matColor : Option (Option String) := none
  width : Option (Option ℚ) := none
  height : Option (Option ℚ) := none
  text : Option (Option String) := none
  color : Option (Option String) := none
  glowIntensity : Option (Option ℚ) := none
  fontSize : Option (Option ℚ) := none
  fontFamily : Option (Option String) := none
  deriving DecidableEq, Repr

/-- The JavaScript spread `{ ...object, ...updates }`: shallow per-field
replacement, with no field guarded. -/
def applyPatch (o : ARObject) (p : ARObjectPatch) : ARObject where
  id := p.id.getD o.id
  type := p.type.getD o.type
  position := p.position.getD o.position
  rotation := p.rotation.getD o.rotation
  scale := p.scale.getD o.scale
  isPlaced := p.isPlaced.getD o.isPlaced
  planeId := p.planeId.getD o.planeId
  lastUpdate := p.lastUpdate.getD o.lastUpdate
  artworkUrl := p.artworkUrl.getD o.artworkUrl
  frameStyle := p.frameStyle.getD o.frameStyle
  frameColor := p.frameColor.getD o.frameColor
  matColor := p.matColor.getD o.matColor
  width := p.width.getD o.width
  height := p.height.getD o.height
  text := p.text.getD o.text
  color := p.color.getD o.color
  glowIntensity := p.glowIntensity.getD o.glowIntensity
  fontSize := p.fontSize.getD o.fontSize
  fontFamily := p.fontFamily.getD o.fontFamily

/-- Commands reflected to the rendering collaborator. -/
inductive RenderCmd
  | updateFrame (o : ARObject)
  | updateNeon (o : ARObject)
  | removeObject (id : String) (mode : ARMode)
  deriving DecidableEq, Repr

/-- The engine's placed-object bookkeeping: the `arObjects` map (a JavaScript
`Map`, insertion ordered). -/
structure EngineState where
  arObjects : List (String × ARObject)
  deriving DecidableEq, Repr

/-- `FramerlyAREngine.updateObject`: throw a not-found error when the id is
absent; otherwise spread the updates over the stored object, store the merged
record, and reflect it to the renderer (frame or neon update chosen by the
stored object's type). -/
def FramerlyAREngine.updateObject (st : EngineState) (objectId : String)
    (updates : ARObjectPatch) : Except String (EngineState × List RenderCmd) :=
  match jsMapGet st.arObjects objectId with
  | none => Except.error ("Object with ID " ++ objectId ++ " not found")
  | some object =>
      let updatedObject := applyPatch object updates
      let st2 : EngineState :=
        { st with arObjects := jsMapSet st.arObjects objectId updatedObject }
      if object.type = ARMode.frame then
        Except.ok (st2, [RenderCmd.updateFrame updatedObject])
      else
        Except.ok (st2, [RenderCmd.updateNeon updatedObject])

/-- `FramerlyAREngine.removeObject`: remove the object and tell the renderer
when the id is present; silently do nothing otherwise. -/
def FramerlyAREngine.removeObject (st : EngineState) (objectId : String) :
    EngineState × List RenderCmd :=
  match jsMapGet st.arObjects objectId with
  | some object =>
      ({ st with arObjects := jsMapDelete st.arObjects objectId },
        [RenderCmd.removeObject objectId object.type])
  | none => (st, [])

/-- Removal always leaves the id absent, whether or not it was present. -/
theorem removeObject_get_none (st : EngineState) (objectId : String) :
    jsMapGet (FramerlyAREngine.removeObject st objectId).1.arObjects objectId = none := by
  rw [FramerlyAREngine.removeObject]
  cases hg : jsMapGet st.arObjects objectId with
  | none => exact hg
  | some o => exact jsMapGet_delete_self st.arObjects objectId

/-- C8: `updateObject` fails with the not-found error exactly when the id is
absent from the placed-object map — in particular for an id removed earlier
in the same tick — and otherwise stores the shallow merge of the changes into
the stored object; `removeObject` of an absent id, in particular a second
removal of the same id, is a no-op that leaves the map unchanged and reports
no error. -/
theorem c8_update_remove_error_handling :
    (∀ (st : EngineState) (objectId : String) (updates : ARObjectPatch),
      jsMapGet st.arObjects objectId = none →
      FramerlyAREngine.updateObject st objectId updates =
        Except.error ("Object with ID " ++ objectId ++ " not found")) ∧
    (∀ (st : EngineState) (objectId : String) (updates : ARObjectPatch),
      FramerlyAREngine.updateObject
        (FramerlyAREngine.removeObject st objectId).1 objectId updates =
        Except.error ("Object with ID " ++ objectId ++ " not found")) ∧
    (∀ (st : EngineState) (objectId : String) (updates : ARObjectPatch)
      (o : ARObject), jsMapGet st.arObjects objectId = some o →
      ∃ cmds, FramerlyAREngine.updateObject st objectId updates =
        Except.ok
          ({ st with arObjects :=
              jsMapSet st.arObjects objectId (applyPatch o updates) }, cmds)) ∧
    (∀ (st : EngineState) (objectId : String),
      jsMapGet st.arObjects objectId = none →
      FramerlyAREngine.removeObject st objectId = (st, [])) ∧
    (∀ (st : EngineState) (objectId : String),
      FramerlyAREngine.removeObject
        (FramerlyAREngine.removeObject st objectId).1 objectId =
        ((FramerlyAREngine.removeObject st objectId).1, [])) := by
  refine ⟨?_, ?_, ?_, ?_, ?_⟩
  · intro st objectId updates hnone
    rw [FramerlyAREngine.updateObject, hnone]
  · intro st objectId updates
    rw [FramerlyAREngine.updateObject, removeObject_get_none]
  · intro st objectId updates o hsome
    by_cases htype : o.type = ARMode.frame
    · exact ⟨[RenderCmd.updateFrame (applyPatch o updates)],
        by simp [FramerlyAREngine.updateObject, hsome, htype]⟩
    · exact ⟨[RenderCmd.updateNeon (applyPatch o updates)],
        by simp [FramerlyAREngine.updateObject, hsome, htype]⟩
  · intro st objectId hnone
    rw [FramerlyAREngine.removeObject, hnone]
  · intro st objectId
    rw [FramerlyAREngine.removeObject, removeObject_get_none]

/-- A concrete placed frame object. -/
def c8Obj : ARObject where
  id := "o1"
  type := ARMode.frame
  position := { x := 0, y := 0, z := 0 }
  rotation := { x := 0, y := 0, z := 0 }
  scale := { x := 1, y := 1, z := 1 }
  isPlaced := true
  planeId := none
  lastUpdate := 0
  artworkUrl := some "art"
  frameStyle := some "modern"
  frameColor := some "black"
  matColor := some "white"
  width := some (2 / 5)
  height := some (3 / 5)
  text := none
  color := none
  glowIntensity := none
  fontSize := none
  fontFamily := none

/-- An engine state holding only `c8Obj`. -/
def c8St : EngineState where
  arObjects := [("o1", c8Obj)]

/-- Witness for C8: removing "o1" and then updating it in the same tick
yields the not-found error. -/
theorem c8_update_remove_error_handling_witness :
    FramerlyAREngine.updateObject
      (FramerlyAREngine.removeObject c8St "o1").1 "o1" {} =
      Except.error ("Object with ID " ++ "o1" ++ " not found") :=
  c8_update_remove_error_handling.2.1 c8St "o1" {}

/-- A successful lookup means some entry matches the key. -/
theorem any_of_jsMapGet_some {α : Type} (m : List (String × α)) (k : String) (v : α)
    (h : jsMapGet m k = some v) : (m.any fun e => e.1 == k) = true := by
  rw [jsMapGet] at h
  cases hf : m.find? fun e => e.1 == k with
  | none => rw [hf] at h; exact absurd h (by simp)
  | some e =>
      have hmem : e ∈ m := List.mem_of_find?_eq_some hf
      have hp : (fun e => e.1 == k) e = true :=
        @List.find?_some _ (fun e => e.1 == k) e m hf
      exact List.any_eq_true.mpr ⟨e, hmem, hp⟩

/-- C10 (implicit): when the id is present, `updateObject` leaves the map's
key list unchanged (nothing added or removed), leaves every other entry
untouched, and stores exactly the unguarded shallow merge — so even the
stored object's `id` and `type` fields are replaced when the changes carry
them, while the map key stays the same. -/
theorem c10_update_frame_effect (st : EngineState) (objectId : String)
    (updates : ARObjectPatch) (o : ARObject)
    (hsome : jsMapGet st.arObjects objectId = some o) :
    ((jsMapSet st.arObjects objectId (applyPatch o updates)).map Prod.fst =
      st.arObjects.map Prod.fst) ∧
    (∀ k, k ≠ objectId →
      jsMapGet (jsMapSet st.arObjects objectId (applyPatch o updates)) k =
        jsMapGet st.arObjects k) ∧
    (jsMapGet (jsMapSet st.arObjects objectId (applyPatch o updates)) objectId =
      some (applyPatch o updates)) ∧
    ((applyPatch o updates).id = updates.id.getD o.id) ∧
    ((applyPatch o updates).type = updates.type.getD o.type) ∧
    (∃ cmds, FramerlyAREngine.updateObject st objectId updates =
      Except.ok
        ({ st with arObjects :=
            jsMapSet st.arObjects objectId (applyPatch o updates) }, cmds)) := by
  refine ⟨?_, ?_, ?_, rfl, rfl, ?_⟩
  · exact jsMapSet_keys_of_mem st.arObjects objectId (applyPatch o updates)
      (any_of_jsMapGet_some st.arObjects objectId o hsome)
  · intro k hk
    exact jsMapGet_set_ne st.arObjects objectId k (applyPatch o updates) hk
  · exact jsMapGet_set_self st.arObjects objectId (applyPatch o updates)
  · by_cases htype : o.type = ARMode.frame
    · exact ⟨[RenderCmd.updateFrame (applyPatch o updates)],
        by simp [FramerlyAREngine.updateObject, hsome, htype]⟩
    · exact ⟨[RenderCmd.updateNeon (applyPatch o updates)],
        by simp [FramerlyAREngine.updateObject, hsome, htype]⟩

/-- A patch that replaces even the `id` and `type` fields. -/
def c10Patch : ARObjectPatch where
  id := some "x2"
  type := some ARMode.neon

/-- Witness for C10: merging `c10Patch` into `c8Obj` keeps the map key list
`["o1"]` while the stored object's own `id` becomes `"x2"` and its `type`
becomes `neon`. -/
theorem c10_update_frame_effect_witness :
    ((jsMapSet c8St.arObjects "o1" (applyPatch c8Obj c10Patch)).map Prod.fst =
      ["o1"]) ∧
    (applyPatch c8Obj c10Patch).id = "x2" ∧
    (applyPatch c8Obj c10Patch).type = ARMode.neon := by
  have h := c10_update_frame_effect c8St "o1" c10Patch c8Obj
    (by norm_num [c8St, jsMapGet, List.find?])
  refine ⟨h.1.trans (by norm_num [c8St]), ?_, ?_⟩
  · rw [h.2.2.2.1]
    rfl
  · rw [h.2.2.2.2.1]
    rfl

/-- A heap of `PlaneData` records, modelling JavaScript object references:
plane records live on the heap and both the registry map and any snapshot
array hold references (`Nat` addresses) into it. -/
def PlaneHeap : Type := Nat → Option PlaneData

/-- A field write through a reference: `snapshot[i].field = v` mutates the
heap cell in place. -/
def heapWrite (h : PlaneHeap) (r : Nat) (v : PlaneData) : PlaneHeap :=
  fun s => if s = r then some v else h s

/-- Registry state in the reference model: the plane map holds references. -/
structure PlaneTrackerRefState where
  planes : List (String × Nat)
  trackingState : TrackingState

/-- `Array.from(this.planes.values())`: a freshly allocated array whose
elements are the same references the registry's map holds. -/
def getDetectedPlanesSnapshot (st : PlaneTrackerRefState) : List Nat :=
  st.planes.map Prod.snd

/-- The plane records the registry itself observes when it next reads its
map through the heap. -/
def registryPlanesView (h : PlaneHeap) (st : PlaneTrackerRefState) :
    List (Option PlaneData) :=
  (st.planes.map Prod.snd).map h

/-- A vertical plane record. -/
def c9RecA : PlaneData where
  id := "p1"
  pose := { position := { x := 0, y := 0, z := 0 }, orientation := qId }
  polygon := []
  orientation := PlaneOrientation.vertical
  lastUpdate := 0

/-- The same record after a caller overwrites its orientation field. -/
def c9RecB : PlaneData where
  id := "p1"
  pose := { position := { x := 0, y := 0, z := 0 }, orientation := qId }
  polygon := []
  orientation := PlaneOrientation.horizontal
  lastUpdate := 0

/-- A heap holding `c9RecA` at address 0. -/
def c9Heap : PlaneHeap := fun r => if r = 0 then some c9RecA else none

/-- A registry whose single plane "p1" is the record at address 0. -/
def c9St : PlaneTrackerRefState where
  planes := [("p1", 0)]
  trackingState := TrackingState.tracking

/-- The reference a caller obtains from the returned snapshot array. -/
def c9SnapshotRef : Nat := (getDetectedPlanesSnapshot c9St).getD 0 99

/-- C9 counterexample: `getDetectedPlanes` copies only the array, not the
records — the caller's field write through the element obtained from the
returned snapshot changes the plane data the registry itself observes
afterwards, so callers can mutate registry-owned state through the returned
value. -/
theorem c9_counterexample :
    c9SnapshotRef ∈ getDetectedPlanesSnapshot c9St ∧
    registryPlanesView (heapWrite c9Heap c9SnapshotRef c9RecB) c9St ≠
      registryPlanesView c9Heap c9St := by
  constructor
  · simp [c9SnapshotRef, getDetectedPlanesSnapshot, c9St]
  · intro hcontra
    have h1 : registryPlanesView (heapWrite c9Heap c9SnapshotRef c9RecB) c9St =
        [some c9RecB] := by
      simp [registryPlanesView, heapWrite, c9Heap, c9St, c9SnapshotRef,
        getDetectedPlanesSnapshot]
    have h2 : registryPlanesView c9Heap c9St = [some c9RecA] := by
      simp [registryPlanesView, c9Heap, c9St]
    rw [h1, h2] at hcontra
    have : c9RecB = c9RecA := by
      simpa using hcontra
    simp [c9RecA, c9RecB] at this

/-- C9 (amended): the accessor returns a freshly allocated array — the array
value itself is built anew from the registry map, so reordering or dropping
elements of the returned list is invisible to the registry — but its elements
alias the registry's own records: every reference in the snapshot is a
reference held by the registry map, and a caller's field write through such a
reference is observed by the registry's subsequent reads. -/
theorem c9_snapshot_aliasing (st : PlaneTrackerRefState) (h : PlaneHeap)
    (r : Nat) (v : PlaneData) (hr : r ∈ getDetectedPlanesSnapshot st) :
    (getDetectedPlanesSnapshot st = st.planes.map Prod.snd) ∧
    r ∈ st.planes.map Prod.snd ∧
    heapWrite h r v r = some v ∧
    some v ∈ registryPlanesView (heapWrite h r v) st := by
  refine ⟨rfl, hr, by simp [heapWrite], ?_⟩
  exact List.mem_map.mpr ⟨r, hr, by simp [heapWrite]⟩

/-- Witness for C9 (amended): writing through the snapshot reference of
`c9St` makes the written record visible to the registry's next read. -/
theorem c9_snapshot_aliasing_witness :
    some c9RecB ∈ registryPlanesView (heapWrite c9Heap c9SnapshotRef c9RecB) c9St :=
  (c9_snapshot_aliasing c9St c9Heap c9SnapshotRef c9RecB
    (by simp [c9SnapshotRef, getDetectedPlanesSnapshot, c9St])).2.2.2

/-- The stability-relevant projection of a filter state. -/
structure StabState where
  velocityHistory : List ℚ
  stabilizationStartTime : Option ℚ
  isStable : Bool
  deriving DecidableEq, Repr

/-- Project a filter state onto its stability machinery. -/
def stabProj (st : PoseFilterState) : StabState where
  velocityHistory := st.velocityHistory
  stabilizationStartTime := st.stabilizationStartTime
  isStable := st.isStable

/-- The stability half of one non-first `filter` call, exactly as the source
performs it: `updateVelocityHistory` followed by `updateStabilityState`. -/
def stabStep (options : PoseFilterOptions) (s : StabState) (delta now : ℚ) : StabState :=
  let velocityHistory := updateVelocityHistory s.velocityHistory delta
  let stab := updateStabilityState options velocityHistory
    s.stabilizationStartTime delta now
  { velocityHistory := velocityHistory
    stabilizationStartTime := stab.1
    isStable := stab.2 }

/-- Run the stability machine over a list of (delta, time) calls. -/
def stabRun (options : PoseFilterOptions) (s : StabState) : List (ℚ × ℚ) → StabState
  | [] => s
  | d :: ds => stabRun options (stabStep options s d.1 d.2) ds

/-- The low-motion test of one call: both the delta and the mean of the
updated rolling history are below the jitter threshold. -/
def lowCall (options : PoseFilterOptions) (hist : List ℚ) (delta : ℚ) : Bool :=
  decide (delta < options.maxJitterThreshold ∧
    (updateVelocityHistory hist delta).sum /
      ((updateVelocityHistory hist delta).length : ℚ) < options.maxJitterThreshold)

/-- Every call of the list is low motion, threading the rolling history. -/
def allLowFrom (options : PoseFilterOptions) (hist : List ℚ) : List (ℚ × ℚ) → Bool
  | [] => true
  | d :: ds => lowCall options hist d.1 &&
      allLowFrom options (updateVelocityHistory hist d.1) ds

/-- The rolling history left after processing the deltas of a prefix. -/
def histAfter (hist : List ℚ) (pre : List (ℚ × ℚ)) : List ℚ :=
  pre.foldl (fun h d => updateVelocityHistory h d.1) hist

/-- The declarative start of the low-motion streak whose suffix begins right
after `pre` at time `t`: the recorded start when the streak reaches back to
the beginning of the run, the suffix's own first call time otherwise. -/
def anchorFor (start : Option ℚ) (pre : List (ℚ × ℚ)) (t : ℚ) : ℚ :=
  match pre, start with
  | [], some a => a
  | _, _ => t

/-- Time of the last call; `lb` for the empty list. -/
def lastTimeFrom (lb : ℚ) : List (ℚ × ℚ) → ℚ
  | [] => lb
  | d :: ds => lastTimeFrom d.2 ds

/-- Timestamps are bounded below by `lb` and nondecreasing. -/
def timesOK (lb : ℚ) : List (ℚ × ℚ) → Prop
  | [] => True
  | d :: ds => lb ≤ d.2 ∧ timesOK d.2 ds

/-- The recorded streak start is unset, or a positive time at most `lb`. -/
def startOK (s : StabState) (lb : ℚ) : Prop :=
  s.stabilizationStartTime = none ∨
  ∃ a, s.stabilizationStartTime = some a ∧ 0 < a ∧ a ≤ lb

/-- The start time the stability update actually uses at time `t`. -/
def startOf (s : StabState) (t : ℚ) : ℚ :=
  if jsFalsyTime s.stabilizationStartTime then t
  else s.stabilizationStartTime.getD t

/-- A low-motion call keeps or starts the stabilization clock and reports
stability once the elapsed duration reaches the window. -/
theorem stabStep_low (options : PoseFilterOptions) (s : StabState) (delta now : ℚ)
    (h : lowCall options s.velocityHistory delta = true) :
    stabStep options s delta now =
      { velocityHistory := updateVelocityHistory s.velocityHistory delta
        stabilizationStartTime := some (startOf s now)
        isStable := decide (now - startOf s now ≥ options.stabilizationTime) } := by
  have hp := of_decide_eq_true h
  simp only [stabStep, updateStabilityState, startOf]
  rw [if_pos hp]

/-- A call at or above the threshold clears the clock and reports
instability. -/
theorem stabStep_high (options : PoseFilterOptions) (s : StabState) (delta now : ℚ)
    (h : lowCall options s.velocityHistory delta = false) :
    stabStep options s delta now =
      { velocityHistory := updateVelocityHistory s.velocityHistory delta
        stabilizationStartTime := none
        isStable := false } := by
  have hp := of_decide_eq_false h
  simp only [stabStep, updateStabilityState]
  rw [if_neg hp]

/-- With a recorded positive start, the update keeps using it. -/
theorem startOf_some (s : StabState) (t a : ℚ)
    (h : s.stabilizationStartTime = some a) (ha : 0 < a) : startOf s t = a := by
  rw [startOf, h]
  simp [jsFalsyTime, ha.ne']

/-- With no recorded start, the update starts the clock now. -/
theorem startOf_none (s : StabState) (t : ℚ)
    (h : s.stabilizationStartTime = none) : startOf s t = t := by
  rw [startOf, h]
  rfl

/-- Runs decompose over list append. -/
theorem stabRun_append (options : PoseFilterOptions) :
    ∀ (l1 l2 : List (ℚ × ℚ)) (s : StabState),
    stabRun options s (l1 ++ l2) = stabRun options (stabRun options s l1) l2 := by
  intro l1
  induction l1 with
  | nil => intro l2 s; rfl
  | cons d l1 ih => intro l2 s; exact ih l2 (stabStep options s d.1 d.2)

/-- The run's rolling history is the fold of the deltas. -/
theorem stabRun_velocityHistory (options : PoseFilterOptions) :
    ∀ (l : List (ℚ × ℚ)) (s : StabState),
    (stabRun options s l).velocityHistory = histAfter s.velocityHistory l := by
  intro l
  induction l with
  | nil => intro s; rfl
  | cons d l ih =>
      intro s
      rw [stabRun, ih]
      rfl

/-- One step preserves the start-time invariant. -/
theorem startOK_step (options : PoseFilterOptions) (s : StabState) (delta t : ℚ)
    (ht : 0 < t) (hs : startOK s t) : startOK (stabStep options s delta t) t := by
  cases hlow : lowCall options s.velocityHistory delta with
  | false => rw [stabStep_high options s delta t hlow]; exact Or.inl rfl
  | true =>
      rw [stabStep_low options s delta t hlow]
      rcases hs with hnone | ⟨a, hsome, ha, hle⟩
      · exact Or.inr ⟨t, by rw [startOf_none s t hnone], ht, le_refl t⟩
      · exact Or.inr ⟨a, by rw [startOf_some s t a hsome ha], ha, hle⟩

/-- The start-time invariant is monotone in the bound. -/
theorem startOK_mono (s : StabState) (lb lb2 : ℚ) (h : lb ≤ lb2)
    (hs : startOK s lb) : startOK s lb2 := by
  rcases hs with hnone | ⟨a, hsome, ha, hle⟩
  · exact Or.inl hnone
  · exact Or.inr ⟨a, hsome, ha, le_trans hle h⟩

/-- The last time of a run is at least the lower bound. -/
theorem le_lastTimeFrom : ∀ (l : List (ℚ × ℚ)) (lb : ℚ), timesOK lb l →
    lb ≤ lastTimeFrom lb l := by
  intro l
  induction l with
  | nil => intro lb _; exact le_refl lb
  | cons d l ih =>
      intro lb hok
      simp only [timesOK] at hok
      rw [lastTimeFrom]
      exact le_trans hok.1 (ih d.2 hok.2)

/-- For a nonempty run the last time does not depend on the bound. -/
theorem lastTimeFrom_indep (d : ℚ × ℚ) (l : List (ℚ × ℚ)) (lb lb2 : ℚ) :
    lastTimeFrom lb (d :: l) = lastTimeFrom lb2 (d :: l) := by
  rw [lastTimeFrom, lastTimeFrom]

/-- A whole run preserves the start-time invariant up to its last time. -/
theorem startOK_run (options : PoseFilterOptions) :
    ∀ (l : List (ℚ × ℚ)) (s : StabState) (lb : ℚ), 0 < lb → timesOK lb l →
    startOK s lb → startOK (stabRun options s l) (lastTimeFrom lb l) := by
  intro l
  induction l with
  | nil => intro s lb _ _ hs; exact hs
  | cons d l ih =>
      intro s lb hlb hok hs
      simp only [timesOK] at hok
      rw [stabRun, lastTimeFrom]
      exact ih (stabStep options s d.1 d.2) d.2 (lt_of_lt_of_le hlb hok.1) hok.2
        (startOK_step options s d.1 d.2 (lt_of_lt_of_le hlb hok.1)
          (startOK_mono s lb d.2 hok.1 hs))

/-- Nondecreasing timestamps restrict to the right part of an append. -/
theorem timesOK_append_right : ∀ (l1 l2 : List (ℚ × ℚ)) (lb : ℚ),
    timesOK lb (l1 ++ l2) → timesOK (lastTimeFrom lb l1) l2 := by
  intro l1
  induction l1 with
  | nil => intro l2 lb h; exact h
  | cons d l1 ih =>
      intro l2 lb h
      simp only [List.cons_append, timesOK] at h
      rw [lastTimeFrom]
      exact ih l2 d.2 h.2

/-- Nondecreasing timestamps restrict to the left part of an append. -/
theorem timesOK_append_left : ∀ (l1 l2 : List (ℚ × ℚ)) (lb : ℚ),
    timesOK lb (l1 ++ l2) → timesOK lb l1 := by
  intro l1
  induction l1 with
  | nil => intro l2 lb _; trivial
  | cons d l1 ih =>
      intro l2 lb h
      simp only [List.cons_append, timesOK] at h
      exact ⟨h.1, ih l2 d.2 h.2⟩

/-- Through an all-low run with a recorded positive start `a`, the start is
kept and the final stability is exactly "the window has elapsed since `a`". -/
theorem stabRun_allLow (options : PoseFilterOptions) :
    ∀ (ds : List (ℚ × ℚ)) (s : StabState) (a : ℚ), ds ≠ [] →
    s.stabilizationStartTime = some a → 0 < a →
    allLowFrom options s.velocityHistory ds = true →
    (stabRun options s ds).stabilizationStartTime = some a ∧
    ((stabRun options s ds).isStable = true ↔
      lastTimeFrom 0 ds - a ≥ options.stabilizationTime) := by
  intro ds
  induction ds with
  | nil => intro s a hne; exact absurd rfl hne
  | cons d ds ih =>
      intro s a _ hst ha hlow
      simp only [allLowFrom, Bool.and_eq_true] at hlow
      have hstep := stabStep_low options s d.1 d.2 hlow.1
      have hso : startOf s d.2 = a := startOf_some s d.2 a hst ha
      cases ds with
      | nil =>
          rw [stabRun, stabRun, hstep, hso]
          refine ⟨rfl, ?_⟩
          simp [lastTimeFrom]
      | cons d2 ds2 =>
          have hnext := ih (stabStep options s d.1 d.2) a (by simp) (by rw [hstep, hso])
            ha (by rw [hstep]; exact hlow.2)
          rw [stabRun]
          refine ⟨hnext.1, ?_⟩
          rw [hnext.2]
          rfl

/-- Soundness core: from any valid state, a fully low-motion call list whose
span from the declarative anchor reaches the window ends stable. -/
theorem stabRun_stable_core (options : PoseFilterOptions) (s : StabState)
    (lb d t : ℚ) (post : List (ℚ × ℚ))
    (hlb : 0 < lb) (hok : timesOK lb ((d, t) :: post)) (hs : startOK s lb)
    (hlow : allLowFrom options s.velocityHistory ((d, t) :: post) = true)
    (hanchor : options.stabilizationTime ≤
      lastTimeFrom lb ((d, t) :: post) - anchorFor s.stabilizationStartTime [] t) :
    (stabRun options s ((d, t) :: post)).isStable = true := by
  simp only [timesOK] at hok
  rcases hs with hnone | ⟨a, hsome, ha, hle⟩
  · -- no recorded start: the first low call starts the clock at `t`
    have hanchor2 : options.stabilizationTime ≤ lastTimeFrom lb ((d, t) :: post) - t := by
      have : anchorFor s.stabilizationStartTime [] t = t := by rw [hnone]; rfl
      rw [this] at hanchor
      exact hanchor
    simp only [allLowFrom, Bool.and_eq_true] at hlow
    have hstep := stabStep_low options s d t hlow.1
    have hso : startOf s t = t := startOf_none s t hnone
    cases post with
    | nil =>
        rw [stabRun, stabRun, hstep, hso]
        simp only [lastTimeFrom] at hanchor2
        simpa using hanchor2
    | cons d2 post2 =>
        have hrun := stabRun_allLow options (d2 :: post2) (stabStep options s d t) t
          (by simp) (by rw [hstep, hso]) (lt_of_lt_of_le hlb hok.1)
          (by rw [hstep]; exact hlow.2)
        rw [stabRun, hrun.2]
        rw [lastTimeFrom, lastTimeFrom_indep d2 post2 t 0] at hanchor2
        exact hanchor2
  · -- recorded start `a`: the whole list continues the streak from `a`
    have hanchor2 : options.stabilizationTime ≤ lastTimeFrom lb ((d, t) :: post) - a := by
      have : anchorFor s.stabilizationStartTime [] t = a := by rw [hsome]; rfl
      rw [this] at hanchor
      exact hanchor
    have hrun := stabRun_allLow options ((d, t) :: post) s a (by simp) hsome ha hlow
    rw [hrun.2, ← lastTimeFrom_indep (d, t) post lb 0]
    exact hanchor2

/-- The last time of an append is the last time of the right part. -/
theorem lastTimeFrom_append : ∀ (l1 l2 : List (ℚ × ℚ)) (lb : ℚ),
    lastTimeFrom lb (l1 ++ l2) = lastTimeFrom (lastTimeFrom lb l1) l2 := by
  intro l1
  induction l1 with
  | nil => intro l2 lb; rfl
  | cons e l1 ih =>
      intro l2 lb
      rw [List.cons_append, lastTimeFrom, ih, lastTimeFrom]

/-- Soundness: a run ends stable whenever some suffix of its calls is fully
low motion and spans at least the stabilization window measured from the
declarative streak anchor. -/
theorem stabRun_stable_of_decomp (options : PoseFilterOptions) (s : StabState)
    (lb : ℚ) (pre : List (ℚ × ℚ)) (d t : ℚ) (post : List (ℚ × ℚ))
    (hlb : 0 < lb) (hok : timesOK lb (pre ++ (d, t) :: post)) (hs : startOK s lb)
    (hlow : allLowFrom options (histAfter s.velocityHistory pre) ((d, t) :: post) = true)
    (hanchor : options.stabilizationTime ≤
      lastTimeFrom lb (pre ++ (d, t) :: post) - anchorFor s.stabilizationStartTime pre t) :
    (stabRun options s (pre ++ (d, t) :: post)).isStable = true := by
  rw [stabRun_append]
  have hokl := timesOK_append_left pre ((d, t) :: post) lb hok
  have hok1 : timesOK (lastTimeFrom lb pre) ((d, t) :: post) :=
    timesOK_append_right pre ((d, t) :: post) lb hok
  have hlb1 : 0 < lastTimeFrom lb pre :=
    lt_of_lt_of_le hlb (le_lastTimeFrom pre lb hokl)
  have hs1 : startOK (stabRun options s pre) (lastTimeFrom lb pre) :=
    startOK_run options pre s lb hlb hokl hs
  have hist1 : (stabRun options s pre).velocityHistory =
      histAfter s.velocityHistory pre := stabRun_velocityHistory options pre s
  apply stabRun_stable_core options (stabRun options s pre) (lastTimeFrom lb pre)
    d t post hlb1 hok1 hs1 (by rw [hist1]; exact hlow)
  cases pre with
  | nil => exact hanchor
  | cons e pre' =>
      have hanchor2 : options.stabilizationTime ≤
          lastTimeFrom (lastTimeFrom lb (e :: pre')) ((d, t) :: post) - t := by
        have h1 : anchorFor s.stabilizationStartTime (e :: pre') t = t := rfl
        rw [h1] at hanchor
        rw [← lastTimeFrom_append (e :: pre') ((d, t) :: post) lb]
        exact hanchor
      simp only [timesOK] at hok1
      rcases hs1 with hnone | ⟨a, hsome, _, hle⟩
      · rw [show anchorFor (stabRun options s (e :: pre')).stabilizationStartTime [] t = t
          from by rw [hnone]; rfl]
        exact hanchor2
      · rw [show anchorFor (stabRun options s (e :: pre')).stabilizationStartTime [] t = a
          from by rw [hsome]; rfl]
        have : a ≤ t := le_trans hle hok1.1
        have := hanchor2
        linarith

/-- With no recorded start the declarative anchor is the suffix's first time. -/
theorem anchorFor_none (pre : List (ℚ × ℚ)) (t : ℚ) :
    anchorFor none pre t = t := by
  cases pre <;> rfl

/-- Completeness: a stable run exhibits a fully low-motion suffix spanning at
least the stabilization window from the declarative streak anchor. -/
theorem stabRun_stable_decomp (options : PoseFilterOptions) :
    ∀ (ds : List (ℚ × ℚ)) (s : StabState) (lb : ℚ), ds ≠ [] → 0 < lb →
    timesOK lb ds → startOK s lb →
    (stabRun options s ds).isStable = true →
    ∃ pre d t post, ds = pre ++ (d, t) :: post ∧
      allLowFrom options (histAfter s.velocityHistory pre) ((d, t) :: post) = true ∧
      options.stabilizationTime ≤
        lastTimeFrom lb ds - anchorFor s.stabilizationStartTime pre t := by
  intro ds
  induction ds with
  | nil => intro s lb hne; exact absurd rfl hne
  | cons d0 ds ih =>
      intro s lb _ hlb hok hs hstable
      simp only [timesOK] at hok
      cases hlow0 : lowCall options s.velocityHistory d0.1 with
      | false =>
          have hstep := stabStep_high options s d0.1 d0.2 hlow0
          cases ds with
          | nil =>
              rw [stabRun, stabRun, hstep] at hstable
              simp at hstable
          | cons d2 ds2 =>
              have hrec := ih (stabStep options s d0.1 d0.2) d0.2 (by simp)
                (lt_of_lt_of_le hlb hok.1) hok.2 (Or.inl (by rw [hstep]))
                (by rw [stabRun] at hstable; exact hstable)
              obtain ⟨pre', d', t', post', heq, hlowfrom, hanchor⟩ := hrec
              have hst1 : (stabStep options s d0.1 d0.2).stabilizationStartTime = none := by
                rw [hstep]
              rw [hst1, anchorFor_none] at hanchor
              refine ⟨d0 :: pre', d', t', post', by rw [List.cons_append, heq], ?_, ?_⟩
              · exact hlowfrom
              · exact hanchor
      | true =>
          have hstep := stabStep_low options s d0.1 d0.2 hlow0
          have ha1pos : 0 < startOf s d0.2 := by
            rcases hs with hnone | ⟨a, hsome, ha, _⟩
            · rw [startOf_none s d0.2 hnone]; exact lt_of_lt_of_le hlb hok.1
            · rw [startOf_some s d0.2 a hsome ha]; exact ha
          have ha1le : startOf s d0.2 ≤ d0.2 := by
            rcases hs with hnone | ⟨a, hsome, ha, hle⟩
            · rw [startOf_none s d0.2 hnone]
            · rw [startOf_some s d0.2 a hsome ha]; exact le_trans hle hok.1
          have hanchorS : anchorFor s.stabilizationStartTime [] d0.2 = startOf s d0.2 := by
            rcases hs with hnone | ⟨a, hsome, ha, _⟩
            · rw [show anchorFor s.stabilizationStartTime [] d0.2 = d0.2 from by
                rw [hnone]; rfl]
              rw [startOf_none s d0.2 hnone]
            · rw [show anchorFor s.stabilizationStartTime [] d0.2 = a from by
                rw [hsome]; rfl]
              rw [startOf_some s d0.2 a hsome ha]
          cases ds with
          | nil =>
              rw [stabRun, stabRun, hstep] at hstable
              simp only at hstable
              have hges := of_decide_eq_true hstable
              refine ⟨[], d0.1, d0.2, [], rfl, ?_, ?_⟩
              · rw [allLowFrom, Bool.and_eq_true]
                exact ⟨hlow0, rfl⟩
              · rw [hanchorS]
                exact hges
          | cons d2 ds2 =>
              have hst1 : (stabStep options s d0.1 d0.2).stabilizationStartTime =
                  some (startOf s d0.2) := by rw [hstep]
              have hrec := ih (stabStep options s d0.1 d0.2) d0.2 (by simp)
                (lt_of_lt_of_le hlb hok.1) hok.2
                (Or.inr ⟨startOf s d0.2, hst1, ha1pos, ha1le⟩)
                (by rw [stabRun] at hstable; exact hstable)
              obtain ⟨pre', d', t', post', heq, hlowfrom, hanchor⟩ := hrec
              cases pre' with
              | nil =>
                  rw [List.nil_append] at heq
                  have hanchor2 : anchorFor
                      (stabStep options s d0.1 d0.2).stabilizationStartTime [] t' =
                      startOf s d0.2 := by rw [hst1]; rfl
                  rw [hanchor2] at hanchor
                  refine ⟨[], d0.1, d0.2, d2 :: ds2, rfl, ?_, ?_⟩
                  · rw [allLowFrom, Bool.and_eq_true]
                    refine ⟨hlow0, ?_⟩
                    rw [heq]
                    exact hlowfrom
                  · rw [hanchorS]
                    exact hanchor
              | cons e pre'' =>
                  refine ⟨d0 :: e :: pre'', d', t', post',
                    by rw [List.cons_append, heq], ?_, ?_⟩
                  · exact hlowfrom
                  · exact hanchor

/-- Run `PoseFilter.filter` over a list of (position, rotation, time) samples. -/
def runFilter (dist : Vec3 → Vec3 → ℚ) (slerpQuaternions : Quat → Quat → ℚ → Quat)
    (st : PoseFilterState) : List (Vec3 × Quat × ℚ) → PoseFilterState
  | [] => st
  | s :: ss => runFilter dist slerpQuaternions
      (PoseFilter.filter dist slerpQuaternions st s.1 s.2.1 s.2.2).1 ss

/-- The displacements a run computes: each call's `dist` between its raw
position and the filter's stored last position at that moment (0 on an
uninitialised filter, which cannot occur after a first call). -/
def deltasOf (dist : Vec3 → Vec3 → ℚ) (slerpQuaternions : Quat → Quat → ℚ → Quat)
    (st : PoseFilterState) : List (Vec3 × Quat × ℚ) → List ℚ
  | [] => []
  | s :: ss =>
      (match st.lastPosition with
       | some lp => dist s.1 lp
       | none => 0) ::
      deltasOf dist slerpQuaternions
        (PoseFilter.filter dist slerpQuaternions st s.1 s.2.1 s.2.2).1 ss

/-- The (delta, time) call list of a run. -/
def runDeltaTimes (dist : Vec3 → Vec3 → ℚ) (slerpQuaternions : Quat → Quat → ℚ → Quat)
    (st : PoseFilterState) (samples : List (Vec3 × Quat × ℚ)) : List (ℚ × ℚ) :=
  (deltasOf dist slerpQuaternions st samples).zip (samples.map fun s => s.2.2)

/-- Sample timestamps are bounded below by `lb` and nondecreasing. -/
def sampleTimesOK (lb : ℚ) : List (Vec3 × Quat × ℚ) → Prop
  | [] => True
  | s :: ss => lb ≤ s.2.2 ∧ sampleTimesOK s.2.2 ss

/-- The filter state right after the first call on a fresh filter. -/
def firstFilterState (dist : Vec3 → Vec3 → ℚ) (slerpQuaternions : Quat → Quat → ℚ → Quat)
    (options : PoseFilterOptions) (p0 : Vec3) (r0 : Quat) (t0 : ℚ) : PoseFilterState :=
  (PoseFilter.filter dist slerpQuaternions (PoseFilter.initWith options) p0 r0 t0).1

/-- Every `filter` call leaves both stored poses present. -/
theorem filter_isSome (dist : Vec3 → Vec3 → ℚ) (slerpQuaternions : Quat → Quat → ℚ → Quat)
    (st : PoseFilterState) (p : Vec3) (r : Quat) (t : ℚ) :
    (PoseFilter.filter dist slerpQuaternions st p r t).1.lastPosition.isSome = true ∧
    (PoseFilter.filter dist slerpQuaternions st p r t).1.lastRotation.isSome = true := by
  rw [PoseFilter.filter]
  cases st.lastPosition <;> cases st.lastRotation <;> simp

/-- A run from an initialised filter stays initialised. -/
theorem runFilter_isSome (dist : Vec3 → Vec3 → ℚ) (slerpQuaternions : Quat → Quat → ℚ → Quat) :
    ∀ (ss : List (Vec3 × Quat × ℚ)) (st : PoseFilterState),
    st.lastPosition.isSome = true → st.lastRotation.isSome = true →
    (runFilter dist slerpQuaternions st ss).lastPosition.isSome = true ∧
    (runFilter dist slerpQuaternions st ss).lastRotation.isSome = true := by
  intro ss
  induction ss with
  | nil => intro st h1 h2; exact ⟨h1, h2⟩
  | cons s ss ih =>
      intro st _ _
      rw [runFilter]
      exact ih _ (filter_isSome dist slerpQuaternions st s.1 s.2.1 s.2.2).1
        (filter_isSome dist slerpQuaternions st s.1 s.2.1 s.2.2).2

/-- `filter` never changes the options record. -/
theorem filter_options_eq (dist : Vec3 → Vec3 → ℚ)
    (slerpQuaternions : Quat → Quat → ℚ → Quat) (st : PoseFilterState)
    (p : Vec3) (r : Quat) (t : ℚ) :
    (PoseFilter.filter dist slerpQuaternions st p r t).1.options = st.options := by
  rw [PoseFilter.filter]
  cases st.lastPosition <;> cases st.lastRotation <;> rfl

/-- A non-first `filter` call advances the stability projection by exactly
one `stabStep` with the computed displacement. -/
theorem filter_stabProj (dist : Vec3 → Vec3 → ℚ)
    (slerpQuaternions : Quat → Quat → ℚ → Quat) (st : PoseFilterState)
    (p : Vec3) (r : Quat) (t : ℚ) (lp : Vec3) (lr : Quat)
    (hlp : st.lastPosition = some lp) (hlr : st.lastRotation = some lr) :
    stabProj (PoseFilter.filter dist slerpQuaternions st p r t).1 =
      stabStep st.options (stabProj st) (dist p lp) t := by
  rw [PoseFilter.filter, hlp, hlr]
  rfl

/-- The call list of a run from an initialised filter starts with that
call's displacement and time. -/
theorem runDeltaTimes_cons (dist : Vec3 → Vec3 → ℚ)
    (slerpQuaternions : Quat → Quat → ℚ → Quat) (st : PoseFilterState)
    (s : Vec3 × Quat × ℚ) (ss : List (Vec3 × Quat × ℚ)) (lp : Vec3)
    (hlp : st.lastPosition = some lp) :
    runDeltaTimes dist slerpQuaternions st (s :: ss) =
      (dist s.1 lp, s.2.2) ::
      runDeltaTimes dist slerpQuaternions
        (PoseFilter.filter dist slerpQuaternions st s.1 s.2.1 s.2.2).1 ss := by
  simp only [runDeltaTimes, deltasOf, hlp, List.map_cons, List.zip_cons_cons]

/-- A run of the filter projects onto a run of the stability machine over
its computed call list. -/
theorem runFilter_stabProj (dist : Vec3 → Vec3 → ℚ)
    (slerpQuaternions : Quat → Quat → ℚ → Quat) :
    ∀ (ss : List (Vec3 × Quat × ℚ)) (st : PoseFilterState) (lp : Vec3) (lr : Quat),
    st.lastPosition = some lp → st.lastRotation = some lr →
    stabProj (runFilter dist slerpQuaternions st ss) =
      stabRun st.options (stabProj st)
        (runDeltaTimes dist slerpQuaternions st ss) := by
  intro ss
  induction ss with
  | nil => intro st lp lr _ _; rfl
  | cons s ss ih =>
      intro st lp lr hlp hlr
      have hnext := filter_isSome dist slerpQuaternions st s.1 s.2.1 s.2.2
      rcases Option.isSome_iff_exists.mp hnext.1 with ⟨lp2, hlp2⟩
      rcases Option.isSome_iff_exists.mp hnext.2 with ⟨lr2, hlr2⟩
      rw [runFilter, ih _ lp2 lr2 hlp2 hlr2,
        filter_options_eq dist slerpQuaternions st s.1 s.2.1 s.2.2,
        filter_stabProj dist slerpQuaternions st s.1 s.2.1 s.2.2 lp lr hlp hlr,
        runDeltaTimes_cons dist slerpQuaternions st s ss lp hlp]
      rfl

/-- Nondecreasing sample times yield a nondecreasing call list. -/
theorem timesOK_runDeltaTimes (dist : Vec3 → Vec3 → ℚ)
    (slerpQuaternions : Quat → Quat → ℚ → Quat) :
    ∀ (ss : List (Vec3 × Quat × ℚ)) (st : PoseFilterState) (lb : ℚ),
    sampleTimesOK lb ss →
    timesOK lb (runDeltaTimes dist slerpQuaternions st ss) := by
  intro ss
  induction ss with
  | nil => intro st lb _; trivial
  | cons s ss ih =>
      intro st lb hok
      simp only [sampleTimesOK] at hok
      simp only [runDeltaTimes, deltasOf, List.map_cons, List.zip_cons_cons, timesOK]
      exact ⟨hok.1, ih _ s.2.2 hok.2⟩

/-- A nonempty run has a nonempty call list. -/
theorem runDeltaTimes_ne_nil (dist : Vec3 → Vec3 → ℚ)
    (slerpQuaternions : Quat → Quat → ℚ → Quat) (st : PoseFilterState)
    (samples : List (Vec3 × Quat × ℚ)) (hne : samples ≠ []) :
    runDeltaTimes dist slerpQuaternions st samples ≠ [] := by
  cases samples with
  | nil => exact absurd rfl hne
  | cons s ss =>
      simp only [runDeltaTimes, deltasOf, List.map_cons, List.zip_cons_cons]
      exact List.cons_ne_nil _ _

/-- Filter runs decompose over list append. -/
theorem runFilter_append (dist : Vec3 → Vec3 → ℚ)
    (slerpQuaternions : Quat → Quat → ℚ → Quat) :
    ∀ (l1 l2 : List (Vec3 × Quat × ℚ)) (st : PoseFilterState),
    runFilter dist slerpQuaternions st (l1 ++ l2) =
      runFilter dist slerpQuaternions (runFilter dist slerpQuaternions st l1) l2 := by
  intro l1
  induction l1 with
  | nil => intro l2 st; rfl
  | cons s l1 ih =>
      intro l2 st
      exact ih l2 (PoseFilter.filter dist slerpQuaternions st s.1 s.2.1 s.2.2).1

/-- C3: over any run of `filter` calls with positive, nondecreasing
timestamps, started by a first call at `t0` and followed by the given
samples, the returned `isStable` is true exactly when the run's trailing
calls form a continuous low-motion streak — every call in it has both its
displacement and the mean of the rolling displacement history below the
jitter threshold — whose span, measured from the recorded streak start (`t0`
itself when the streak reaches back to the first call), is at least the
stabilization window; moreover any single call whose displacement is at or
above the threshold returns `isStable = false` and clears the
continuous-low-motion start time, so stability can only return once a fresh
full window of continuous low motion has elapsed, as the characterization
requires of every longer run. -/
theorem c3_stability_characterization (dist : Vec3 → Vec3 → ℚ)
    (slerpQuaternions : Quat → Quat → ℚ → Quat) (options : PoseFilterOptions)
    (p0 : Vec3) (r0 : Quat) (t0 : ℚ) (samples : List (Vec3 × Quat × ℚ))
    (ht0 : 0 < t0) (hts : sampleTimesOK t0 samples) (hne : samples ≠ []) :
    (((runFilter dist slerpQuaternions
        (firstFilterState dist slerpQuaternions options p0 r0 t0) samples).isStable = true) ↔
      (∃ pre d t post,
        runDeltaTimes dist slerpQuaternions
          (firstFilterState dist slerpQuaternions options p0 r0 t0) samples =
          pre ++ (d, t) :: post ∧
        allLowFrom options (histAfter [] pre) ((d, t) :: post) = true ∧
        options.stabilizationTime ≤
          lastTimeFrom t0 (runDeltaTimes dist slerpQuaternions
            (firstFilterState dist slerpQuaternions options p0 r0 t0) samples) -
          anchorFor (some t0) pre t)) ∧
    (∀ (spre : List (Vec3 × Quat × ℚ)) (sx : Vec3 × Quat × ℚ)
      (spost : List (Vec3 × Quat × ℚ)) (lp : Vec3), samples = spre ++ sx :: spost →
      (runFilter dist slerpQuaternions
        (firstFilterState dist slerpQuaternions options p0 r0 t0) spre).lastPosition =
        some lp →
      options.maxJitterThreshold ≤ dist sx.1 lp →
      (runFilter dist slerpQuaternions
        (firstFilterState dist slerpQuaternions options p0 r0 t0)
        (spre ++ [sx])).isStable = false ∧
      (runFilter dist slerpQuaternions
        (firstFilterState dist slerpQuaternions options p0 r0 t0)
        (spre ++ [sx])).stabilizationStartTime = none) := by
  have hst0p : (firstFilterState dist slerpQuaternions options p0 r0 t0).lastPosition =
      some p0 := rfl
  have hst0r : (firstFilterState dist slerpQuaternions options p0 r0 t0).lastRotation =
      some r0 := rfl
  constructor
  · have hproj := runFilter_stabProj dist slerpQuaternions samples
      (firstFilterState dist slerpQuaternions options p0 r0 t0) p0 r0 hst0p hst0r
    have hiso : (runFilter dist slerpQuaternions
        (firstFilterState dist slerpQuaternions options p0 r0 t0) samples).isStable =
        (stabRun options
          (stabProj (firstFilterState dist slerpQuaternions options p0 r0 t0))
          (runDeltaTimes dist slerpQuaternions
            (firstFilterState dist slerpQuaternions options p0 r0 t0) samples)).isStable :=
      congrArg StabState.isStable hproj
    have hds_ne := runDeltaTimes_ne_nil dist slerpQuaternions
      (firstFilterState dist slerpQuaternions options p0 r0 t0) samples hne
    have hok := timesOK_runDeltaTimes dist slerpQuaternions samples
      (firstFilterState dist slerpQuaternions options p0 r0 t0) t0 hts
    have hstart : startOK
        (stabProj (firstFilterState dist slerpQuaternions options p0 r0 t0)) t0 :=
      Or.inr ⟨t0, rfl, ht0, le_refl t0⟩
    constructor
    · intro h
      have h2 := hiso ▸ h
      exact stabRun_stable_decomp options
        (runDeltaTimes dist slerpQuaternions
          (firstFilterState dist slerpQuaternions options p0 r0 t0) samples)
        (stabProj (firstFilterState dist slerpQuaternions options p0 r0 t0)) t0
        hds_ne ht0 hok hstart h2
    · rintro ⟨pre, d, t, post, heq, hlow, hanch⟩
      rw [hiso, heq]
      apply stabRun_stable_of_decomp options
        (stabProj (firstFilterState dist slerpQuaternions options p0 r0 t0)) t0
        pre d t post ht0 (heq ▸ hok) hstart hlow
      rw [← heq]
      exact hanch
  · intro spre sx spost lp heqs hlp hth
    rcases Option.isSome_iff_exists.mp
      (runFilter_isSome dist slerpQuaternions spre
        (firstFilterState dist slerpQuaternions options p0 r0 t0)
        (by rw [hst0p]; rfl) (by rw [hst0r]; rfl)).2 with ⟨lr, hlr⟩
    have happ : runFilter dist slerpQuaternions
        (firstFilterState dist slerpQuaternions options p0 r0 t0) (spre ++ [sx]) =
        (PoseFilter.filter dist slerpQuaternions
          (runFilter dist slerpQuaternions
            (firstFilterState dist slerpQuaternions options p0 r0 t0) spre)
          sx.1 sx.2.1 sx.2.2).1 := by
      rw [runFilter_append]
      rfl
    have hproj := filter_stabProj dist slerpQuaternions
      (runFilter dist slerpQuaternions
        (firstFilterState dist slerpQuaternions options p0 r0 t0) spre)
      sx.1 sx.2.1 sx.2.2 lp lr hlp hlr
    have hopts : (runFilter dist slerpQuaternions
        (firstFilterState dist slerpQuaternions options p0 r0 t0) spre).options =
        options := by
      have : ∀ (l : List (Vec3 × Quat × ℚ)) (st : PoseFilterState),
          (runFilter dist slerpQuaternions st l).options = st.options := by
        intro l
        induction l with
        | nil => intro st; rfl
        | cons s l ih =>
            intro st
            rw [runFilter, ih]
            exact filter_options_eq dist slerpQuaternions st s.1 s.2.1 s.2.2
      exact this spre (firstFilterState dist slerpQuaternions options p0 r0 t0)
    have hlowf : lowCall options
        (stabProj (runFilter dist slerpQuaternions
          (firstFilterState dist slerpQuaternions options p0 r0 t0) spre)).velocityHistory
        (dist sx.1 lp) = false := by
      apply decide_eq_false
      intro hcon
      exact absurd hcon.1 (not_lt.mpr hth)
    have hstep := stabStep_high options
      (stabProj (runFilter dist slerpQuaternions
        (firstFilterState dist slerpQuaternions options p0 r0 t0) spre))
      (dist sx.1 lp) sx.2.2 hlowf
    rw [hopts] at hproj
    constructor
    · rw [happ]
      have h1 := congrArg StabState.isStable hproj
      rw [hstep] at h1
      exact h1
    · rw [happ]
      have h1 := congrArg StabState.stabilizationStartTime hproj
      rw [hstep] at h1
      exact h1

/-- Witness for C3: a first call at time 1 followed by a motionless sample at
time 2000 (displacement 0, well below the default 0.01 threshold, and window
`2000 - 1 ≥ 1000` elapsed) makes the filter report stability. -/
theorem c3_stability_characterization_witness :
    (runFilter distX slerpKeep
      (firstFilterState distX slerpKeep defaultPoseFilterOptions
        { x := 0, y := 0, z := 0 } qId 1)
      [({ x := 0, y := 0, z := 0 }, qId, 2000)]).isStable = true := by
  apply (c3_stability_characterization distX slerpKeep defaultPoseFilterOptions
    { x := 0, y := 0, z := 0 } qId 1 [({ x := 0, y := 0, z := 0 }, qId, 2000)]
    (by norm_num) ⟨by norm_num, trivial⟩ (by simp)).1.mpr
  refine ⟨[], 0, 2000, [], ?_, ?_, ?_⟩
  · norm_num [runDeltaTimes, deltasOf, firstFilterState, PoseFilter.filter,
      PoseFilter.initWith, distX]
  · norm_num [allLowFrom, lowCall, updateVelocityHistory, defaultPoseFilterOptions,
      histAfter]
  · norm_num [runDeltaTimes, deltasOf, firstFilterState, PoseFilter.filter,
      PoseFilter.initWith, distX, lastTimeFrom, anchorFor, defaultPoseFilterOptions]
